import Mathlib

/-!
# Verification of the qdata-expression engine

A shallow embedding, in Lean 4, of the core of the `qdata_expr` Python
package: the dynamic value fragment, the expression AST, the safe
tree-walking interpreter (`SafeEvaluator`), the static safety checker
(`SafetyChecker` / `Sandbox`), the identifier analyzer
(`ExpressionAnalyzer`), the LRU expression cache, and the orchestrating
engine (`ExpressionEngine`).  Each definition is translated from the
corresponding Python source in `src/qdata_expr/`; host facilities that
the interpreter delegates to (Python `getattr` on non-dict objects,
calling registered host callables, object identity for `is`, and `str()`
of objects outside the modelled fragment) are abstracted as a `Host`
parameter record.

The modelled value fragment covers `None`, booleans, unbounded integers,
strings, lists, tuples, sets, dicts, callables (as opaque tagged values)
and the four ambient math constants (as opaque tagged values, since
their float values lie outside the integer fragment).  Python floats are
outside the fragment: operators whose Python result would be a float
(true division, negative exponents) are mapped to an explicit
`floatUnsupported` error, and no verified claim depends on them.
-/

set_option maxRecDepth 8000

namespace QdataExpr

/-- Dynamic values manipulated by the interpreter (the modelled fragment
of Python's value universe).  `callable` stands for an opaque host
callable (as stored in the function registry), `mathConst` for one of
the ambient float constants `e`/`pi`/`inf`/`nan` injected by the engine
(their float values are outside the integer fragment, so they are kept
opaque). -/
inductive Val where
  | pyNone
  | bool (b : Bool)
  | int (n : Int)
  | str (s : String)
  | list (xs : List Val)
  | tuple (xs : List Val)
  | setV (xs : List Val)
  | dict (entries : List (Val × Val))
  | callable (tag : String)
  | mathConst (tag : String)

/-- Python truthiness, as used by `not`, `and`/`or`, `if`-expressions and
comprehension guards: `None`, `False`, `0`, `""` and empty containers are
falsy, everything else (including any callable and the math constants,
all of which are nonzero floats) is truthy. -/
def truthy : Val → Bool
  | .pyNone => false
  | .bool b => b
  | .int n => n != 0
  | .str s => s != ""
  | .list xs => !xs.isEmpty
  | .tuple xs => !xs.isEmpty
  | .setV xs => !xs.isEmpty
  | .dict es => !es.isEmpty
  | .callable _ => true
  | .mathConst _ => true

/-- Numeric view of a value: Python treats `bool` as a subtype of `int`,
so both contribute to arithmetic and numeric equality. -/
def Val.asNum : Val → Option Int
  | .bool b => some (if b then 1 else 0)
  | .int n => some n
  | _ => none

mutual

/-- Python `==` on the modelled fragment: numeric values compare by
value across `bool`/`int`, sequences compare elementwise, sets and dicts
compare by contents, values of unrelated types compare unequal (no
error, as in Python). -/
def valEq : Val → Val → Bool
  | .pyNone, .pyNone => true
  | .bool a, .bool b => a == b
  | .bool a, .int n => (if a then (1 : Int) else 0) == n
  | .int n, .bool b => n == (if b then (1 : Int) else 0)
  | .int m, .int n => m == n
  | .str s, .str t => s == t
  | .list xs, .list ys => valEqList xs ys
  | .tuple xs, .tuple ys => valEqList xs ys
  | .setV xs, .setV ys => valEqSet xs ys && valEqSet ys xs && xs.length == ys.length
  | .dict es, .dict fs => es.length == fs.length && valEqEntries es fs
  | .callable a, .callable b => a == b
  | .mathConst a, .mathConst b => a == b
  | _, _ => false
termination_by a b => sizeOf a + sizeOf b

/-- Elementwise list equality (shared by lists and tuples). -/
def valEqList : List Val → List Val → Bool
  | [], [] => true
  | x :: xs, y :: ys => valEq x y && valEqList xs ys
  | _, _ => false
termination_by xs ys => sizeOf xs + sizeOf ys

/-- Every element of the first list has an equal element in the second
(one inclusion of Python set equality). -/
def valEqSet : List Val → List Val → Bool
  | [], _ => true
  | x :: xs, ys => valMem x ys && valEqSet xs ys
termination_by xs ys => sizeOf xs + sizeOf ys

/-- Membership by `==` in a list of values. -/
def valMem : Val → List Val → Bool
  | _, [] => false
  | x, y :: ys => valEq x y || valMem x ys
termination_by x ys => sizeOf x + sizeOf ys

/-- Every key/value entry of the first dict has a matching entry in the
second (one inclusion of Python dict equality; with equal lengths and
unique keys this is dict equality). -/
def valEqEntries : List (Val × Val) → List (Val × Val) → Bool
  | [], _ => true
  | (k, v) :: es, fs => valEntryMem k v fs && valEqEntries es fs
termination_by es fs => sizeOf es + sizeOf fs

/-- A key/value pair occurs (by `==`) among the given dict entries. -/
def valEntryMem : Val → Val → List (Val × Val) → Bool
  | _, _, [] => false
  | k, v, (k', v') :: fs => (valEq k k' && valEq v v') || valEntryMem k v fs
termination_by k v fs => sizeOf k + sizeOf v + sizeOf fs

end

/-- Dict lookup by key equality (`d[k]` / `d.get(k)` key search): the
value of the first entry whose key is `==` to the requested key. -/
def dictFind : List (Val × Val) → Val → Option Val
  | [], _ => none
  | (k', v) :: es, k => if valEq k k' then some v else dictFind es k

/-- Dict update `d[k] = v`: overwrite the first entry with an equal key,
keeping its position, else append a new entry (Python insertion order). -/
def dictStore : List (Val × Val) → Val → Val → List (Val × Val)
  | [], k, v => [(k, v)]
  | (k', v') :: es, k, v =>
      if valEq k k' then (k, v) :: es else (k', v') :: dictStore es k v

/-- Build a dict from a key/value list in order, later entries
overwriting earlier ones with an equal key (dict displays and dict
comprehensions). -/
def buildDict (pairs : List (Val × Val)) : List (Val × Val) :=
  pairs.foldl (fun d kv => dictStore d kv.1 kv.2) []

/-- Build a set from a list of elements, keeping the first occurrence of
each `==`-class (Python `set(...)` construction on the fragment). -/
def buildSet (xs : List Val) : List Val :=
  (xs.foldl (fun acc x => if valMem x acc then acc else x :: acc) []).reverse

/-- The evaluator's name table (`self.names`): a string-keyed mapping
with Python-dict semantics, represented as an insertion-ordered
association list with unique keys. -/
abbrev NameMap := List (String × Val)

/-- `names[k]` / `k in names`: the value of the first binding of `k`. -/
def lookupName : NameMap → String → Option Val
  | [], _ => none
  | (k', v) :: m, k => if k = k' then some v else lookupName m k

/-- `k in names` as a Boolean. -/
def containsName (m : NameMap) (k : String) : Bool :=
  (lookupName m k).isSome

/-- `names[k] = v`: overwrite the binding of `k` in place if present,
else append it (Python dict insertion order). -/
def storeName : NameMap → String → Val → NameMap
  | [], k, v => [(k, v)]
  | (k', v') :: m, k, v =>
      if k = k' then (k, v) :: m else (k', v') :: storeName m k v

/-- Binary operator kinds of the evaluator's `OPERATORS` table, plus
`matMult` (`@`), which Python can parse but the table does not contain,
so that the evaluator's unsupported-operator branch stays reachable. -/
inductive BinOpKind where
  | add | sub | mult | div | floorDiv | mod | pow
  | bitAnd | bitOr | bitXor | lshift | rshift
  | matMult

/-- Unary operator kinds (`USub`, `UAdd`, `Not`, `Invert`), all present
in the `OPERATORS` table. -/
inductive UnaryOpKind where
  | usub | uadd | notOp | invert

/-- Comparison operator kinds, all present in the `OPERATORS` table. -/
inductive CmpOpKind where
  | eq | ne | lt | le | gt | ge | isOp | isNot | inOp | notIn

/-- Boolean operator kinds (`ast.And` / `ast.Or`). -/
inductive BoolOpKind where
  | andOp | orOp

/-- The Python expression AST fragment produced by `ast.parse(source,
mode="eval")` and consumed by the evaluator, analyzer and safety
checker.  A comprehension generator clause `for target in iter if c1 if
c2 ...` is the triple `(target, iter, ifs)`.  `dictLit` keys are
optional because `{**d}` produces a `None` key in the Python AST.
`sliceExpr` is the `ast.Slice` node appearing under a subscript. -/
inductive Ast where
  | constant (v : Val)
  | name (id : String)
  | binOp (op : BinOpKind) (left right : Ast)
  | unaryOp (op : UnaryOpKind) (operand : Ast)
  | boolOp (op : BoolOpKind) (values : List Ast)
  | compare (left : Ast) (pairs : List (CmpOpKind × Ast))
  | ifExp (test body orelse : Ast)
  | call (fn : Ast) (args : List Ast) (keywords : List (Option String × Ast))
  | attrAccess (value : Ast) (attr : String)
  | subscript (value : Ast) (index : Ast)
  | sliceExpr (lower upper step : Option Ast)
  | listLit (elts : List Ast)
  | tupleLit (elts : List Ast)
  | setLit (elts : List Ast)
  | dictLit (entries : List (Option Ast × Ast))
  | joinedStr (values : List Ast)
  | formattedValue (value : Ast)
  | listComp (elt : Ast) (gens : List (Ast × Ast × List Ast))
  | setComp (elt : Ast) (gens : List (Ast × Ast × List Ast))
  | dictComp (key value : Ast) (gens : List (Ast × Ast × List Ast))
  | generatorExp (elt : Ast) (gens : List (Ast × Ast × List Ast))

/-- Errors the interpreter can produce while walking an AST.  Each
constructor corresponds to an exception the Python code can raise from
`_eval_node`: the evaluator's own typed errors (`UndefinedVariableError`,
`UndefinedFunctionError`, unsupported operator/node/call-form
`ExpressionEvalError`s) and the host-level exceptions its delegated
operations can raise (`TypeError`, `IndexError`, `KeyError`,
`AttributeError`, `ValueError`, `ZeroDivisionError`).  Operations whose
Python result would be a float are reported as `floatUnsupported`,
marking the boundary of the modelled integer fragment.  There is
deliberately no recursion-limit constructor: nothing in
`SafeEvaluator` raises `RecursionLimitError`. -/
inductive EvalErr where
  | undefinedVariable (name : String)
  | undefinedFunction (name : String)
  | unsupportedOperator (opName : String)
  | unsupportedCallForm
  | unsupportedNode (nodeName : String)
  | typeError (msg : String)
  | indexError
  | keyError
  | attributeError (attr : String)
  | valueError (msg : String)
  | zeroDivision
  | hostError (msg : String)
  | floatUnsupported

/-- Host facilities the interpreter delegates to and which are outside
the modelled fragment: `getattr` on a receiver (`none` models an
`AttributeError`), calling a callable value with positional and keyword
arguments, object identity for `is`, and `str()` of values that have no
fragment-level string form (callables and the float math constants). -/
structure Host where
  attr : Val → String → Option Val
  applyCall : Val → List Val → List (String × Val) → Except EvalErr Val
  isId : Val → Val → Bool
  showOther : Val → String

/-- The per-evaluator immutable environment: the `functions` dict given
to `SafeEvaluator.__init__` (never mutated by evaluation) together with
the host facilities. -/
structure EvalCtx where
  functions : NameMap
  host : Host

mutual

/-- Python's lexicographic / numeric `<` on the modelled fragment:
numbers (with `bool` as `0`/`1`), strings, and lists/tuples
elementwise; comparing values of unrelated types is a `TypeError`. -/
def valLt : Val → Val → Except EvalErr Bool
  | .str s, .str t => .ok (decide (s < t))
  | .list xs, .list ys => valLtList xs ys
  | .tuple xs, .tuple ys => valLtList xs ys
  | a, b =>
      match a.asNum, b.asNum with
      | some m, some n => .ok (decide (m < n))
      | _, _ => .error (.typeError "unorderable types")
termination_by a b => sizeOf a + sizeOf b

/-- Lexicographic `<` on value lists: skip `==`-equal prefixes, then
compare the first differing pair; a strict prefix is smaller. -/
def valLtList : List Val → List Val → Except EvalErr Bool
  | [], [] => .ok false
  | [], _ :: _ => .ok true
  | _ :: _, [] => .ok false
  | x :: xs, y :: ys => if valEq x y then valLtList xs ys else valLt x y
termination_by xs ys => sizeOf xs + sizeOf ys

end

/-- Substring test for Python's `a in s` on strings; the empty string is
contained in every string. -/
def strContains (s sub : String) : Bool :=
  if sub = "" then true else (s.splitOn sub).length != 1

/-- Python membership `a in b`: substring for strings, `==`-membership
for lists/tuples/sets, key membership for dicts; other containers are a
`TypeError`. -/
def pyContains (container item : Val) : Except EvalErr Bool :=
  match container with
  | .str s =>
      match item with
      | .str sub => .ok (strContains s sub)
      | _ => .error (.typeError "in <string> requires string as left operand")
  | .list xs => .ok (valMem item xs)
  | .tuple xs => .ok (valMem item xs)
  | .setV xs => .ok (valMem item xs)
  | .dict es => .ok ((dictFind es item).isSome)
  | _ => .error (.typeError "argument is not iterable")

/-- Repeat a list `n` times (Python sequence replication; nonpositive
counts give the empty sequence). -/
def seqRepeat (xs : List Val) (n : Int) : List Val :=
  (List.replicate n.toNat xs).flatten

/-- Repeat a string `n` times. -/
def strRepeat (s : String) (n : Int) : String :=
  String.join (List.replicate n.toNat s)

/-- The `OPERATORS` table entries for `ast.BinOp` nodes, on the
modelled fragment: integer arithmetic (`bool` coerced to `int`),
sequence concatenation and replication, floor division and modulo with
Python's floor/divisor-sign convention, and integer bitwise operators.
`/` and negative exponents produce floats in Python and are therefore
`floatUnsupported` here; `@` (`MatMult`) is not in the table, so it maps
to the evaluator's unsupported-operator error. -/
def applyBin : BinOpKind → Val → Val → Except EvalErr Val
  | .add, a, b =>
      match a.asNum, b.asNum with
      | some m, some n => .ok (.int (m + n))
      | _, _ =>
        match a, b with
        | .str s, .str t => .ok (.str (s ++ t))
        | .list xs, .list ys => .ok (.list (xs ++ ys))
        | .tuple xs, .tuple ys => .ok (.tuple (xs ++ ys))
        | _, _ => .error (.typeError "unsupported operand type(s) for +")
  | .sub, a, b =>
      match a.asNum, b.asNum with
      | some m, some n => .ok (.int (m - n))
      | _, _ => .error (.typeError "unsupported operand type(s) for -")
  | .mult, a, b =>
      match a.asNum, b.asNum with
      | some m, some n => .ok (.int (m * n))
      | _, _ =>
        match a, b with
        | .str s, .int n => .ok (.str (strRepeat s n))
        | .int n, .str s => .ok (.str (strRepeat s n))
        | .list xs, .int n => .ok (.list (seqRepeat xs n))
        | .int n, .list xs => .ok (.list (seqRepeat xs n))
        | .tuple xs, .int n => .ok (.tuple (seqRepeat xs n))
        | .int n, .tuple xs => .ok (.tuple (seqRepeat xs n))
        | _, _ => .error (.typeError "unsupported operand type(s) for *")
  | .div, a, b =>
      match a.asNum, b.asNum with
      | some _, some n => if n = 0 then .error .zeroDivision else .error .floatUnsupported
      | _, _ => .error (.typeError "unsupported operand type(s) for /")
  | .floorDiv, a, b =>
      match a.asNum, b.asNum with
      | some m, some n => if n = 0 then .error .zeroDivision else .ok (.int (Int.fdiv m n))
      | _, _ => .error (.typeError "unsupported operand type(s) for //")
  | .mod, a, b =>
      match a.asNum, b.asNum with
      | some m, some n => if n = 0 then .error .zeroDivision else .ok (.int (Int.fmod m n))
      | _, _ => .error (.typeError "unsupported operand type(s) for %")
  | .pow, a, b =>
      match a.asNum, b.asNum with
      | some m, some n => if n < 0 then .error .floatUnsupported else .ok (.int (m ^ n.toNat))
      | _, _ => .error (.typeError "unsupported operand type(s) for **")
  | .bitAnd, a, b =>
      match a.asNum, b.asNum with
      | some m, some n => .ok (.int (Int.land m n))
      | _, _ => .error (.typeError "unsupported operand type(s) for &")
  | .bitOr, a, b =>
      match a.asNum, b.asNum with
      | some m, some n => .ok (.int (Int.lor m n))
      | _, _ => .error (.typeError "unsupported operand type(s) for |")
  | .bitXor, a, b =>
      match a.asNum, b.asNum with
      | some m, some n => .ok (.int (Int.xor m n))
      | _, _ => .error (.typeError "unsupported operand type(s) for ^")
  | .lshift, a, b =>
      match a.asNum, b.asNum with
      | some m, some n =>
          if n < 0 then .error (.valueError "negative shift count")
          else .ok (.int (m * (2 : Int) ^ n.toNat))
      | _, _ => .error (.typeError "unsupported operand type(s) for <<")
  | .rshift, a, b =>
      match a.asNum, b.asNum with
      | some m, some n =>
          if n < 0 then .error (.valueError "negative shift count")
          else .ok (.int (Int.shiftRight m n.toNat))
      | _, _ => .error (.typeError "unsupported operand type(s) for >>")
  | .matMult, _, _ => .error (.unsupportedOperator "MatMult")

/-- The `OPERATORS` table entries for `ast.UnaryOp` nodes: numeric
negation/identity/bitwise complement, and `not`, which returns the
negated truthiness as a canonical `bool`. -/
def applyUnary : UnaryOpKind → Val → Except EvalErr Val
  | .usub, a =>
      match a.asNum with
      | some n => .ok (.int (-n))
      | none => .error (.typeError "bad operand type for unary -")
  | .uadd, a =>
      match a.asNum with
      | some n => .ok (.int n)
      | none => .error (.typeError "bad operand type for unary +")
  | .notOp, a => .ok (.bool (!truthy a))
  | .invert, a =>
      match a.asNum with
      | some n => .ok (.int (-n - 1))
      | none => .error (.typeError "bad operand type for unary ~")

/-- The `OPERATORS` table entries for comparison operators, returning
the Python boolean each lambda produces; `is`/`is not` delegate to host
object identity. -/
def applyCmp (H : Host) : CmpOpKind → Val → Val → Except EvalErr Val
  | .eq, a, b => .ok (.bool (valEq a b))
  | .ne, a, b => .ok (.bool (!valEq a b))
  | .lt, a, b => do pure (.bool (← valLt a b))
  | .le, a, b => do pure (.bool ((← valLt a b) || valEq a b))
  | .gt, a, b => do pure (.bool (← valLt b a))
  | .ge, a, b => do pure (.bool ((← valLt b a) || valEq a b))
  | .isOp, a, b => .ok (.bool (H.isId a b))
  | .isNot, a, b => .ok (.bool (!H.isId a b))
  | .inOp, a, b => do pure (.bool (← pyContains b a))
  | .notIn, a, b => do pure (.bool (!(← pyContains b a)))

/-- Index into a sequence of length `xs.length` with Python semantics:
negative indices count from the end; out of range is `none`. -/
def seqIndex (xs : List Val) (i : Int) : Option Val :=
  let L : Int := xs.length
  let j := if i < 0 then i + L else i
  if j < 0 || L ≤ j then none else xs.get? j.toNat

/-- `obj[key]` for a non-slice key: sequence indexing (with `bool`
accepted as an index, as in Python), string indexing, dict key lookup
raising `KeyError` on a miss, `TypeError` otherwise. -/
def getItem : Val → Val → Except EvalErr Val
  | .list xs, k =>
      match k.asNum with
      | some i => match seqIndex xs i with
                  | some v => .ok v
                  | none => .error .indexError
      | none => .error (.typeError "list indices must be integers")
  | .tuple xs, k =>
      match k.asNum with
      | some i => match seqIndex xs i with
                  | some v => .ok v
                  | none => .error .indexError
      | none => .error (.typeError "tuple indices must be integers")
  | .str s, k =>
      match k.asNum with
      | some i => match seqIndex (s.data.map (fun c => .str (String.singleton c))) i with
                  | some v => .ok v
                  | none => .error .indexError
      | none => .error (.typeError "string indices must be integers")
  | .dict es, k =>
      match dictFind es k with
      | some v => .ok v
      | none => .error .keyError
  | _, _ => .error (.typeError "object is not subscriptable")

/-- CPython's slice-index adjustment followed by element extraction:
given optional lower/upper/step, normalize the bounds against the
length and collect every `step`-th element. -/
def sliceElems (xs : List Val) (lo hi stp : Option Int) : Except EvalErr (List Val) :=
  let s := stp.getD 1
  if s = 0 then .error (.valueError "slice step cannot be zero")
  else
    let L : Int := xs.length
    let neg := s < 0
    let adj : Int → Int := fun i0 =>
      let i := if i0 < 0 then i0 + L else i0
      if i < 0 then (if neg then -1 else 0)
      else if L ≤ i then (if neg then L - 1 else L) else i
    let start := match lo with
      | some i => adj i
      | none => if neg then L - 1 else 0
    let stop := match hi with
      | some i => adj i
      | none => if neg then -1 else L
    let count := (if neg then Int.fdiv (start - stop + (-s) - 1) (-s)
                  else Int.fdiv (stop - start + s - 1) s).toNat
    .ok ((List.range count).filterMap (fun k => xs.get? (start + k * s).toNat))

/-- A slice bound: absent, or `None`, or a number (with `bool` as in
Python); anything else is a `TypeError`. -/
def asSliceIdx : Option Val → Except EvalErr (Option Int)
  | none => .ok none
  | some .pyNone => .ok none
  | some v =>
      match v.asNum with
      | some i => .ok (some i)
      | none => .error (.typeError "slice indices must be integers or None")

/-- `obj[lower:upper:step]` on the modelled sequences. -/
def applySlice (obj : Val) (lo hi stp : Option Val) : Except EvalErr Val := do
  let l ← asSliceIdx lo
  let h ← asSliceIdx hi
  let s ← asSliceIdx stp
  match obj with
  | .list xs => do pure (.list (← sliceElems xs l h s))
  | .tuple xs => do pure (.tuple (← sliceElems xs l h s))
  | .str t => do
      let cs ← sliceElems (t.data.map (fun c => .str (String.singleton c))) l h s
      pure (.str (String.join (cs.map (fun v => match v with | .str c => c | _ => ""))))
  | _ => .error (.typeError "object is not subscriptable")

/-- `for item in iterable`: the sequence of values iteration yields on
the modelled fragment (dicts yield their keys); non-iterables are a
`TypeError`. -/
def iterVals : Val → Except EvalErr (List Val)
  | .list xs => .ok xs
  | .tuple xs => .ok xs
  | .setV xs => .ok xs
  | .str s => .ok (s.data.map (fun c => .str (String.singleton c)))
  | .dict es => .ok (es.map (fun e => e.1))
  | _ => .error (.typeError "object is not iterable")

mutual

/-- Python `str()` on the fragment (used by f-string interpolation);
callables and math constants delegate to the host. -/
def pyStr (H : Host) : Val → String
  | .pyNone => "None"
  | .bool b => if b then "True" else "False"
  | .int n => toString n
  | .str s => s
  | .list xs => "[" ++ String.intercalate ", " (pyReprList H xs) ++ "]"
  | .tuple [x] => "(" ++ pyRepr H x ++ ",)"
  | .tuple xs => "(" ++ String.intercalate ", " (pyReprList H xs) ++ ")"
  | .setV [] => "set()"
  | .setV xs => "\x7b" ++ String.intercalate ", " (pyReprList H xs) ++ "\x7d"
  | .dict es => "\x7b" ++ String.intercalate ", " (pyReprEntries H es) ++ "\x7d"
  | .callable t => H.showOther (.callable t)
  | .mathConst t => H.showOther (.mathConst t)
termination_by v => (sizeOf v, 0)

/-- Python `repr()` on the fragment (containers display their elements
with `repr`); string quoting is modelled without escape handling. -/
def pyRepr (H : Host) : Val → String
  | .str s => "'" ++ s ++ "'"
  | v => pyStr H v
termination_by v => (sizeOf v, 1)

/-- `repr` of each element of a list. -/
def pyReprList (H : Host) : List Val → List String
  | [] => []
  | x :: xs => pyRepr H x :: pyReprList H xs
termination_by xs => (sizeOf xs, 0)

/-- `repr(k): repr(v)` for each dict entry. -/
def pyReprEntries (H : Host) : List (Val × Val) → List String
  | [] => []
  | (k, v) :: es => (pyRepr H k ++ ": " ++ pyRepr H v) :: pyReprEntries H es
termination_by es => (sizeOf es, 0)

end

/-- The body of a comprehension: a single element expression
(list/set/generator) or a key/value pair (dict comprehension). -/
inductive CompBody where
  | single (elt : Ast)
  | pair (key value : Ast)

/-- One produced comprehension item: an element or a key/value pair. -/
abbrev CompOut := Sum Val (Val × Val)

/-- The element outputs of a comprehension run. -/
def compLefts (outs : List CompOut) : List Val :=
  outs.filterMap (fun o => o.getLeft?)

/-- The key/value outputs of a dict-comprehension run. -/
def compRights (outs : List CompOut) : List (Val × Val) :=
  outs.filterMap (fun o => o.getRight?)

/-- Bind the elements of a tuple comprehension target: for each
position, a `Name` element is bound to `item[i]` (whose indexing can
fail, propagating the host `IndexError`/`TypeError`), and any other
element shape is silently skipped, as in the source. -/
def bindTupleElts : List Ast → Nat → Val → NameMap → Except EvalErr NameMap
  | [], _, _, st => .ok st
  | .name n :: rest, i, item, st => do
      let v ← getItem item (.int i)
      bindTupleElts rest (i + 1) item (storeName st n v)
  | _ :: rest, i, item, st => bindTupleElts rest (i + 1) item st

/-- Bind a comprehension iteration variable: a `Name` target is bound
directly, a `Tuple` target is unpacked positionally, and any other
target shape binds nothing (the source has no further case). -/
def bindTarget (target : Ast) (item : Val) (st : NameMap) : Except EvalErr NameMap :=
  match target with
  | .name n => .ok (storeName st n item)
  | .tupleLit elts => bindTupleElts elts 0 item st
  | _ => .ok st

mutual

/-- `SafeEvaluator._eval_node`: the tree-walking interpreter, with the
mutated `self.names` dict threaded through explicitly.  Branches appear
in source order; comprehensions snapshot the name table on entry and
restore it on (successful) exit, exactly as `_eval_comprehension` /
`_eval_dict_comprehension` do; an unhandled node kind is the final
unsupported-expression error. -/
def evalNode (C : EvalCtx) : Ast → NameMap → Except EvalErr (Val × NameMap)
  | .constant v, st => .ok (v, st)
  | .name n, st =>
      match lookupName C.functions n with
      | some v => .ok (v, st)
      | none =>
        match lookupName st n with
        | some v => .ok (v, st)
        | none =>
          if n = "True" then .ok (.bool true, st)
          else if n = "False" then .ok (.bool false, st)
          else if n = "None" then .ok (.pyNone, st)
          else .error (.undefinedVariable n)
  | .binOp op l r, st => do
      let (lv, st1) ← evalNode C l st
      let (rv, st2) ← evalNode C r st1
      let v ← applyBin op lv rv
      pure (v, st2)
  | .unaryOp op e, st => do
      let (v, st1) ← evalNode C e st
      let r ← applyUnary op v
      pure (r, st1)
  | .compare l pairs, st => do
      let (lv, st1) ← evalNode C l st
      evalCmpChain C lv pairs st1
  | .boolOp .andOp vs, st => evalAndChain C vs st
  | .boolOp .orOp vs, st => evalOrChain C vs st
  | .ifExp t b o, st => do
      let (tv, st1) ← evalNode C t st
      if truthy tv then evalNode C b st1 else evalNode C o st1
  | .call fn args kws, st =>
      match fn with
      | .name fname =>
          match lookupName C.functions fname with
          | none => .error (.undefinedFunction fname)
          | some fv => do
              let (avs, st1) ← evalSeq C args st
              let (kvs, st2) ← evalKeywords C kws st1
              let v ← C.host.applyCall fv avs kvs
              pure (v, st2)
      | .attrAccess objAst methodName => do
          let (obj, st1) ← evalNode C objAst st
          match C.host.attr obj methodName with
          | none => .error (.attributeError methodName)
          | some fv => do
              let (avs, st2) ← evalSeq C args st1
              let (kvs, st3) ← evalKeywords C kws st2
              let v ← C.host.applyCall fv avs kvs
              pure (v, st3)
      | _ => .error .unsupportedCallForm
  | .attrAccess vAst a, st => do
      let (obj, st1) ← evalNode C vAst st
      match obj with
      | .dict es => pure ((dictFind es (.str a)).getD .pyNone, st1)
      | o =>
        match C.host.attr o a with
        | some v => pure (v, st1)
        | none => .error (.attributeError a)
  | .subscript vAst idx, st => do
      let (obj, st1) ← evalNode C vAst st
      match idx with
      | .constant c => do
          let v ← getItem obj c
          pure (v, st1)
      | .sliceExpr lo hi sp => do
          let (lv, st2) ← evalOpt C lo st1
          let (hv, st3) ← evalOpt C hi st2
          let (sv, st4) ← evalOpt C sp st3
          let v ← applySlice obj lv hv sv
          pure (v, st4)
      | other => do
          let (iv, st2) ← evalNode C other st1
          let v ← getItem obj iv
          pure (v, st2)
  | .listLit elts, st => do
      let (vs, st1) ← evalSeq C elts st
      pure (.list vs, st1)
  | .tupleLit elts, st => do
      let (vs, st1) ← evalSeq C elts st
      pure (.tuple vs, st1)
  | .setLit elts, st => do
      let (vs, st1) ← evalSeq C elts st
      pure (.setV (buildSet vs), st1)
  | .dictLit entries, st => do
      let (pairs, st1) ← evalDictEntries C entries st
      pure (.dict (buildDict pairs), st1)
  | .joinedStr parts, st => do
      let (ss, st1) ← evalFStringParts C parts st
      pure (.str (String.join ss), st1)
  | .listComp elt gens, st => do
      let (outs, _) ← evalGens C (.single elt) gens st
      pure (.list (compLefts outs), st)
  | .setComp elt gens, st => do
      let (outs, _) ← evalGens C (.single elt) gens st
      pure (.setV (buildSet (compLefts outs)), st)
  | .dictComp k v gens, st => do
      let (outs, _) ← evalGens C (.pair k v) gens st
      pure (.dict (buildDict (compRights outs)), st)
  | .generatorExp elt gens, st => do
      let (outs, _) ← evalGens C (.single elt) gens st
      pure (.list (compLefts outs), st)
  | .sliceExpr _ _ _, _ => .error (.unsupportedNode "Slice")
  | .formattedValue _, _ => .error (.unsupportedNode "FormattedValue")
termination_by t _ => (sizeOf t, 1, 0)

/-- Evaluate a list of expressions left to right (argument lists,
collection displays). -/
def evalSeq (C : EvalCtx) : List Ast → NameMap → Except EvalErr (List Val × NameMap)
  | [], st => .ok ([], st)
  | a :: rest, st => do
      let (v, st1) ← evalNode C a st
      let (vs, st2) ← evalSeq C rest st1
      pure (v :: vs, st2)
termination_by l _ => (sizeOf l, 0, 0)

/-- Evaluate call keywords: `**kwargs` entries (those with no argument
name) are filtered out without being evaluated, as in the source's
guarded dict comprehension. -/
def evalKeywords (C : EvalCtx) : List (Option String × Ast) → NameMap →
    Except EvalErr (List (String × Val) × NameMap)
  | [], st => .ok ([], st)
  | (argName, a) :: rest, st =>
      match argName with
      | some nm => do
          let (v, st1) ← evalNode C a st
          let (kvs, st2) ← evalKeywords C rest st1
          pure ((nm, v) :: kvs, st2)
      | none => evalKeywords C rest st
termination_by l _ => (sizeOf l, 0, 0)

/-- Evaluate dict-display entries; a missing key (`{**d}`) contributes
the key `None` without evaluating anything, as in the source. -/
def evalDictEntries (C : EvalCtx) : List (Option Ast × Ast) → NameMap →
    Except EvalErr (List (Val × Val) × NameMap)
  | [], st => .ok ([], st)
  | (kOpt, vAst) :: rest, st => do
      let (kv, st1) ← (match kOpt with
        | some kAst => evalNode C kAst st
        | none => .ok (Val.pyNone, st))
      let (vv, st2) ← evalNode C vAst st1
      let (ps, st3) ← evalDictEntries C rest st2
      pure ((kv, vv) :: ps, st3)
termination_by l _ => (sizeOf l, 0, 0)

/-- Evaluate f-string parts: constants and formatted values are
stringified in source order, any other part shape is skipped. -/
def evalFStringParts (C : EvalCtx) : List Ast → NameMap →
    Except EvalErr (List String × NameMap)
  | [], st => .ok ([], st)
  | .constant v :: rest, st => do
      let (ss, st1) ← evalFStringParts C rest st
      pure (pyStr C.host v :: ss, st1)
  | .formattedValue e :: rest, st => do
      let (v, st1) ← evalNode C e st
      let (ss, st2) ← evalFStringParts C rest st1
      pure (pyStr C.host v :: ss, st2)
  | _ :: rest, st => evalFStringParts C rest st
termination_by l _ => (sizeOf l, 0, 0)

/-- The chained-comparison loop: evaluate each comparator, apply the
operator table entry, return `False` at the first non-truthy link and
`True` after the last. -/
def evalCmpChain (C : EvalCtx) (left : Val) : List (CmpOpKind × Ast) → NameMap →
    Except EvalErr (Val × NameMap)
  | [], st => .ok (.bool true, st)
  | (op, rAst) :: rest, st => do
      let (rv, st1) ← evalNode C rAst st
      let b ← applyCmp C.host op left rv
      if truthy b then evalCmpChain C rv rest st1
      else pure (.bool false, st1)
termination_by l _ => (sizeOf l, 0, 0)

/-- `and`: return `False` at the first falsy operand (not evaluating
the rest), `True` if all operands are truthy. -/
def evalAndChain (C : EvalCtx) : List Ast → NameMap → Except EvalErr (Val × NameMap)
  | [], st => .ok (.bool true, st)
  | a :: rest, st => do
      let (v, st1) ← evalNode C a st
      if truthy v then evalAndChain C rest st1 else pure (.bool false, st1)
termination_by l _ => (sizeOf l, 0, 0)

/-- `or`: return `True` at the first truthy operand (not evaluating the
rest), `False` if all operands are falsy. -/
def evalOrChain (C : EvalCtx) : List Ast → NameMap → Except EvalErr (Val × NameMap)
  | [], st => .ok (.bool false, st)
  | a :: rest, st => do
      let (v, st1) ← evalNode C a st
      if truthy v then pure (.bool true, st1) else evalOrChain C rest st1
termination_by l _ => (sizeOf l, 0, 0)

/-- Evaluate an optional sub-expression (slice bounds): absent means
Python `None`. -/
def evalOpt (C : EvalCtx) : Option Ast → NameMap → Except EvalErr (Option Val × NameMap)
  | none, st => .ok (none, st)
  | some a, st => do
      let (v, st1) ← evalNode C a st
      pure (some v, st1)
termination_by o _ => (sizeOf o, 0, 0)

/-- `SafeEvaluator._eval_generators`: past the last generator clause the
callback fires once; otherwise evaluate the clause's iterable and run
the item loop. -/
def evalGens (C : EvalCtx) (body : CompBody) : List (Ast × Ast × List Ast) → NameMap →
    Except EvalErr (List CompOut × NameMap)
  | [], st => do
      let (o, st1) ← evalCompBody C body st
      pure ([o], st1)
  | (target, iterAst, ifs) :: rest, st => do
      let (itv, st1) ← evalNode C iterAst st
      let items ← iterVals itv
      evalItems C body target ifs rest items st1
termination_by gens _ => (sizeOf body + sizeOf gens, 0, 0)

/-- The comprehension callback: produce one element (or key/value pair,
key evaluated first) in the current name table. -/
def evalCompBody (C : EvalCtx) : CompBody → NameMap → Except EvalErr (CompOut × NameMap)
  | .single elt, st => do
      let (v, st1) ← evalNode C elt st
      pure (.inl v, st1)
  | .pair kAst vAst, st => do
      let (kv, st1) ← evalNode C kAst st
      let (vv, st2) ← evalNode C vAst st1
      pure (.inr (kv, vv), st2)
termination_by body _ => (sizeOf body, 0, 0)

/-- The `for item in iterable` loop of `_eval_generators`: bind the
target, evaluate the guards, and descend to the next generator clause
only when all guards pass; bindings persist across iterations. -/
def evalItems (C : EvalCtx) (body : CompBody) (target : Ast) (ifs : List Ast)
    (rest : List (Ast × Ast × List Ast)) : List Val → NameMap →
    Except EvalErr (List CompOut × NameMap)
  | [], st => .ok ([], st)
  | item :: more, st => do
      let st1 ← bindTarget target item st
      let (pass, st2) ← evalIfs C ifs st1
      if pass then do
        let (outs, st3) ← evalGens C body rest st2
        let (outsMore, st4) ← evalItems C body target ifs rest more st3
        pure (outs ++ outsMore, st4)
      else evalItems C body target ifs rest more st2
termination_by items _ => (sizeOf body + sizeOf target + sizeOf ifs + sizeOf rest + 1, 0, items.length)

/-- `all(self._eval_node(if_clause) for if_clause in comp.ifs)`:
guards are evaluated left to right, stopping at the first falsy one. -/
def evalIfs (C : EvalCtx) : List Ast → NameMap → Except EvalErr (Bool × NameMap)
  | [], st => .ok (true, st)
  | c :: cs, st => do
      let (v, st1) ← evalNode C c st
      if truthy v then evalIfs C cs st1 else pure (false, st1)
termination_by l _ => (sizeOf l, 0, 0)

end

/-- The sandbox policy (`SandboxConfig`): the fields the modelled
components read, plus the numeric limits the policy records.
`max_execution_time` is seconds (the source default is the float `5.0`,
kept here as a natural number since no modelled code reads it).  The
source's `allowed_operators`, `forbidden_attr_patterns` and
`allowed_type_attrs` fields are not read by any modelled code path (the
checker hardcodes its underscore patterns and the resolver that reads
the attribute allowlist deliberately falls through), so they are not
carried here. -/
structure SandboxConfig where
  strictPrivateAccess : Bool
  forbiddenNames : List String
  allowedBuiltins : List String
  maxExecutionTime : Nat
  maxRecursionDepth : Nat
  maxStringLength : Nat
  maxCollectionSize : Nat

/-- The default sandbox policy, with the source's forbidden-name and
allowed-builtin sets and numeric limits. -/
def defaultSandboxConfig : SandboxConfig where
  strictPrivateAccess := false
  forbiddenNames :=
    ["eval", "exec", "compile", "open", "input", "__import__",
     "globals", "locals", "vars", "dir", "getattr", "setattr",
     "delattr", "hasattr", "type", "object", "classmethod",
     "staticmethod", "property", "file", "code", "memoryview",
     "breakpoint", "exit", "quit", "help", "copyright", "credits",
     "license"]
  allowedBuiltins :=
    ["int", "float", "str", "bool", "list", "tuple", "dict", "set",
     "frozenset", "bytes", "abs", "round", "min", "max", "sum", "len",
     "sorted", "reversed", "enumerate", "zip", "map", "filter", "all",
     "any", "range", "slice", "repr", "ascii", "bin", "hex", "oct",
     "ord", "chr", "format", "hash", "id", "isinstance", "issubclass",
     "callable", "iter", "next", "pow", "divmod",
     "True", "False", "None"]
  maxExecutionTime := 5
  maxRecursionDepth := 100
  maxStringLength := 1000000
  maxCollectionSize := 100000

/-- Python `str.startswith` on the character level. -/
def strStartsWith (s pre : String) : Bool :=
  pre.data.isPrefixOf s.data

/-- Python `str.endswith` on the character level. -/
def strEndsWith (s suf : String) : Bool :=
  suf.data.reverse.isPrefixOf s.data.reverse

/-- `SafetyChecker.visit_Attribute`'s violation messages for one
attribute name: dunder attributes, other double-underscore-prefixed
attributes, and (under strict mode) single-underscore-prefixed ones. -/
def attrViolations (cfg : SandboxConfig) (a : String) : List String :=
  if strStartsWith a "__" && strEndsWith a "__" then ["禁止访问魔术属性: " ++ a]
  else if strStartsWith a "__" then ["禁止访问私有属性: " ++ a]
  else if strStartsWith a "_" && cfg.strictPrivateAccess then ["禁止访问私有属性: " ++ a]
  else []

/-- `SafetyChecker.visit_Name`'s violation messages for one bare
identifier. -/
def nameViolations (cfg : SandboxConfig) (n : String) : List String :=
  if cfg.forbiddenNames.contains n then ["禁止访问名称: " ++ n] else []

/-- `SafetyChecker.visit_Call`'s violation messages: the call target is
the direct name, or the attribute name of a method call; a target in
the forbidden set is a violation. -/
def callViolations (cfg : SandboxConfig) (fn : Ast) : List String :=
  match fn with
  | .name id => if cfg.forbiddenNames.contains id then ["禁止调用函数: " ++ id] else []
  | .attrAccess _ a => if cfg.forbiddenNames.contains a then ["禁止调用函数: " ++ a] else []
  | _ => []

mutual

/-- `SafetyChecker.visit` / `generic_visit`: walk the AST appending
violation messages to the accumulated error list.  Visitors exist for
`Name`, `Attribute` and `Call`; every node then has its child nodes
visited in Python AST field order (for a dict display: all keys, then
all values).  The `visit_Import` / `visit_ImportFrom` visitors are
unreachable here because `ast.parse(..., mode="eval")` cannot produce
statement nodes. -/
def checkVisit (cfg : SandboxConfig) : Ast → List String → List String
  | .constant _, acc => acc
  | .name n, acc => acc ++ nameViolations cfg n
  | .binOp _ l r, acc => checkVisit cfg r (checkVisit cfg l acc)
  | .unaryOp _ e, acc => checkVisit cfg e acc
  | .boolOp _ vs, acc => checkSeq cfg vs acc
  | .compare l pairs, acc => checkCmpPairs cfg pairs (checkVisit cfg l acc)
  | .ifExp t b o, acc => checkVisit cfg o (checkVisit cfg b (checkVisit cfg t acc))
  | .call fn args kws, acc =>
      checkKws cfg kws (checkSeq cfg args (checkVisit cfg fn (acc ++ callViolations cfg fn)))
  | .attrAccess v a, acc => checkVisit cfg v (acc ++ attrViolations cfg a)
  | .subscript v idx, acc => checkVisit cfg idx (checkVisit cfg v acc)
  | .sliceExpr lo hi sp, acc =>
      checkOpt cfg sp (checkOpt cfg hi (checkOpt cfg lo acc))
  | .listLit elts, acc => checkSeq cfg elts acc
  | .tupleLit elts, acc => checkSeq cfg elts acc
  | .setLit elts, acc => checkSeq cfg elts acc
  | .dictLit entries, acc => checkDictVals cfg entries (checkDictKeys cfg entries acc)
  | .joinedStr vs, acc => checkSeq cfg vs acc
  | .formattedValue v, acc => checkVisit cfg v acc
  | .listComp elt gens, acc => checkGens cfg gens (checkVisit cfg elt acc)
  | .setComp elt gens, acc => checkGens cfg gens (checkVisit cfg elt acc)
  | .dictComp k v gens, acc =>
      checkGens cfg gens (checkVisit cfg v (checkVisit cfg k acc))
  | .generatorExp elt gens, acc => checkGens cfg gens (checkVisit cfg elt acc)
termination_by t _ => (sizeOf t, 1)

/-- Visit a list of child nodes in order. -/
def checkSeq (cfg : SandboxConfig) : List Ast → List String → List String
  | [], acc => acc
  | t :: rest, acc => checkSeq cfg rest (checkVisit cfg t acc)
termination_by l _ => (sizeOf l, 0)

/-- Visit the comparator children of a `Compare` node (the operator
objects have no visitor and no children). -/
def checkCmpPairs (cfg : SandboxConfig) : List (CmpOpKind × Ast) → List String → List String
  | [], acc => acc
  | (_, r) :: rest, acc => checkCmpPairs cfg rest (checkVisit cfg r acc)
termination_by l _ => (sizeOf l, 0)

/-- Visit keyword-argument value children. -/
def checkKws (cfg : SandboxConfig) : List (Option String × Ast) → List String → List String
  | [], acc => acc
  | (_, v) :: rest, acc => checkKws cfg rest (checkVisit cfg v acc)
termination_by l _ => (sizeOf l, 0)

/-- Visit the key children of a dict display (absent `{**d}` keys are
skipped, as `generic_visit` skips `None` fields). -/
def checkDictKeys (cfg : SandboxConfig) : List (Option Ast × Ast) → List String → List String
  | [], acc => acc
  | (some k, _) :: rest, acc => checkDictKeys cfg rest (checkVisit cfg k acc)
  | (none, _) :: rest, acc => checkDictKeys cfg rest acc
termination_by l _ => (sizeOf l, 0)

/-- Visit the value children of a dict display. -/
def checkDictVals (cfg : SandboxConfig) : List (Option Ast × Ast) → List String → List String
  | [], acc => acc
  | (_, v) :: rest, acc => checkDictVals cfg rest (checkVisit cfg v acc)
termination_by l _ => (sizeOf l, 0)

/-- Visit an optional child node. -/
def checkOpt (cfg : SandboxConfig) : Option Ast → List String → List String
  | none, acc => acc
  | some t, acc => checkVisit cfg t acc
termination_by o _ => (sizeOf o, 0)

/-- Visit generator clauses: each clause's target, iterable and guard
children, in order. -/
def checkGens (cfg : SandboxConfig) : List (Ast × Ast × List Ast) → List String → List String
  | [], acc => acc
  | (t, i, ifs) :: rest, acc =>
      checkGens cfg rest (checkSeq cfg ifs (checkVisit cfg i (checkVisit cfg t acc)))
termination_by l _ => (sizeOf l, 0)

end

/-- An abstract rendering of CPython's `ast.parse(source, mode="eval")`:
a fixed deterministic function from source text to either the
expression's AST or a syntax-error message.  The development is
parametric in this function; theorems about concrete source strings
take the string's documented parse as a hypothesis. -/
abbrev ParseFn := String → Except String Ast

/-- `SafetyChecker.check` as a pure function of the policy and the
source: parse, walk, and return the violation list (a parse failure
contributes the syntax-error message). -/
def checkPure (cfg : SandboxConfig) (p : ParseFn) (src : String) : List String :=
  match p src with
  | .ok t => checkVisit cfg t []
  | .error msg => ["语法错误: " ++ msg]

/-- The stateful `SafetyChecker.check` method: `self.errors` is reset to
`[]` before the walk, so the result is independent of the checker's
previous error state; returns `(result, new checker state)`. -/
def checkerCheck (cfg : SandboxConfig) (p : ParseFn) (src : String)
    (_prevErrors : List String) : List String × List String :=
  let errs := checkPure cfg p src
  (errs, errs)

/-- Insert into a Python set modelled as a duplicate-free list. -/
def insertStr (l : List String) (s : String) : List String :=
  if l.contains s then l else l ++ [s]

/-- `ExpressionAnalyzer.visit_Name`'s set updates for one bare
identifier: `True`/`False`/`None` are excluded; known function names go
to the function set, everything else to the variable set. -/
def nameRegister (known : List String) (n : String)
    (s : List String × List String) : List String × List String :=
  if n = "True" || n = "False" || n = "None" then s
  else if known.contains n then (s.1, insertStr s.2 n)
  else (insertStr s.1 n, s.2)

/-- `ExpressionAnalyzer.visit_Call`'s set updates: a direct call target
is added to the function set and discarded from the variable set; a
method call's attribute name is added to the function set. -/
def callRegister (fn : Ast) (s : List String × List String) :
    List String × List String :=
  match fn with
  | .name id => (s.1.erase id, insertStr s.2 id)
  | .attrAccess _ a => (s.1, insertStr s.2 a)
  | _ => s

mutual

/-- `ExpressionAnalyzer.visit`: thread the `(variables, functions)` sets
through the walk.  `visit_Name` classifies a bare identifier (excluding
`True`/`False`/`None`) by membership in the known-function set;
`visit_Call` adds the call target (direct name or method attribute) to
the function set and discards a direct target from the variable set,
then `generic_visit` still visits the target `Name` child. -/
def anaVisit (known : List String) : Ast → List String × List String →
    List String × List String
  | .constant _, s => s
  | .name n, s => nameRegister known n s
  | .binOp _ l r, s => anaVisit known r (anaVisit known l s)
  | .unaryOp _ e, s => anaVisit known e s
  | .boolOp _ vals, s => anaSeq known vals s
  | .compare l pairs, s => anaCmpPairs known pairs (anaVisit known l s)
  | .ifExp t b o, s => anaVisit known o (anaVisit known b (anaVisit known t s))
  | .call fn args kws, s =>
      anaKws known kws (anaSeq known args (anaVisit known fn (callRegister fn s)))
  | .attrAccess v _, s => anaVisit known v s
  | .subscript v idx, s => anaVisit known idx (anaVisit known v s)
  | .sliceExpr lo hi sp, s => anaOpt known sp (anaOpt known hi (anaOpt known lo s))
  | .listLit elts, s => anaSeq known elts s
  | .tupleLit elts, s => anaSeq known elts s
  | .setLit elts, s => anaSeq known elts s
  | .dictLit entries, s => anaDictVals known entries (anaDictKeys known entries s)
  | .joinedStr vals, s => anaSeq known vals s
  | .formattedValue v, s => anaVisit known v s
  | .listComp elt gens, s => anaGens known gens (anaVisit known elt s)
  | .setComp elt gens, s => anaGens known gens (anaVisit known elt s)
  | .dictComp k v gens, s => anaGens known gens (anaVisit known v (anaVisit known k s))
  | .generatorExp elt gens, s => anaGens known gens (anaVisit known elt s)
termination_by t _ => (sizeOf t, 1)

/-- Visit a list of child nodes in order (analyzer). -/
def anaSeq (known : List String) : List Ast → List String × List String →
    List String × List String
  | [], s => s
  | t :: rest, s => anaSeq known rest (anaVisit known t s)
termination_by l _ => (sizeOf l, 0)

/-- Visit comparator children (analyzer). -/
def anaCmpPairs (known : List String) : List (CmpOpKind × Ast) →
    List String × List String → List String × List String
  | [], s => s
  | (_, r) :: rest, s => anaCmpPairs known rest (anaVisit known r s)
termination_by l _ => (sizeOf l, 0)

/-- Visit keyword-argument value children (analyzer). -/
def anaKws (known : List String) : List (Option String × Ast) →
    List String × List String → List String × List String
  | [], s => s
  | (_, v) :: rest, s => anaKws known rest (anaVisit known v s)
termination_by l _ => (sizeOf l, 0)

/-- Visit dict-display key children (analyzer). -/
def anaDictKeys (known : List String) : List (Option Ast × Ast) →
    List String × List String → List String × List String
  | [], s => s
  | (some k, _) :: rest, s => anaDictKeys known rest (anaVisit known k s)
  | (none, _) :: rest, s => anaDictKeys known rest s
termination_by l _ => (sizeOf l, 0)

/-- Visit dict-display value children (analyzer). -/
def anaDictVals (known : List String) : List (Option Ast × Ast) →
    List String × List String → List String × List String
  | [], s => s
  | (_, v) :: rest, s => anaDictVals known rest (anaVisit known v s)
termination_by l _ => (sizeOf l, 0)

/-- Visit an optional child node (analyzer). -/
def anaOpt (known : List String) : Option Ast → List String × List String →
    List String × List String
  | none, s => s
  | some t, s => anaVisit known t s
termination_by o _ => (sizeOf o, 0)

/-- Visit generator clauses (analyzer). -/
def anaGens (known : List String) : List (Ast × Ast × List Ast) →
    List String × List String → List String × List String
  | [], s => s
  | (t, i, ifs) :: rest, s =>
      anaGens known rest (anaSeq known ifs (anaVisit known i (anaVisit known t s)))
termination_by l _ => (sizeOf l, 0)

end

/-- `ExpressionAnalyzer.analyze`: reset both sets, walk the tree, and
return the sorted variable and function name lists. -/
def analyzeAst (known : List String) (t : Ast) : List String × List String :=
  let (vs, fs) := anaVisit known t ([], [])
  (vs.mergeSort (fun a b => decide (a ≤ b)), fs.mergeSort (fun a b => decide (a ≤ b)))

/-- `CompiledExpression`: the cached compile result — the source text
and its AST (the host byte-code object is not modelled; the
`variables`/`functions` fields keep their empty defaults, as
`CompiledExpression.compile` never fills them). -/
structure CompiledExpression where
  expression : String
  astNode : Ast

/-- `CompiledExpression.compile`: parse the source, or fail with the
parse error (`ExpressionParseError`), carried here as the syntax-error
message. -/
def compileExpression (p : ParseFn) (expr : String) : Except String CompiledExpression :=
  match p expr with
  | .ok t => .ok ⟨expr, t⟩
  | .error m => .error m

/-- The thread-safe LRU cache's state: insertion/recency-ordered
entries (most recently used last, as in the backing `OrderedDict`) and
the hit/miss counters. -/
structure LRUCache where
  maxSize : Nat
  entries : List (String × CompiledExpression)
  hits : Nat
  misses : Nat

/-- First-match association lookup on cache keys. -/
def cacheFind : List (String × CompiledExpression) → String → Option CompiledExpression
  | [], _ => none
  | (k', v) :: es, k => if k = k' then some v else cacheFind es k

/-- `move_to_end`: drop the keyed entry and re-append it with its
stored value. -/
def moveToEnd (es : List (String × CompiledExpression)) (k : String)
    (v : CompiledExpression) : List (String × CompiledExpression) :=
  es.filter (fun e => e.1 != k) ++ [(k, v)]

/-- `LRUCache.get`: on a hit, move the entry to the recent end and
count a hit; on a miss count a miss. -/
def lruGet (c : LRUCache) (k : String) : Option CompiledExpression × LRUCache :=
  match cacheFind c.entries k with
  | some v => (some v, { c with entries := moveToEnd c.entries k v, hits := c.hits + 1 })
  | none => (none, { c with misses := c.misses + 1 })

/-- `LRUCache.put`: an existing key is only moved to the recent end
(its stored value is kept, as in the source); a new key evicts the
least recently used entry at capacity and is appended. -/
def lruPut (c : LRUCache) (k : String) (v : CompiledExpression) : LRUCache :=
  match cacheFind c.entries k with
  | some old => { c with entries := moveToEnd c.entries k old }
  | none =>
      let es := if c.maxSize ≤ c.entries.length then c.entries.drop 1 else c.entries
      { c with entries := es ++ [(k, v)] }

/-- `LRUCache.clear`: empty the map and reset both counters. -/
def lruClear (c : LRUCache) : LRUCache :=
  { c with entries := [], hits := 0, misses := 0 }

/-- A fresh cache of the given capacity. -/
def emptyCache (maxSize : Nat) : LRUCache :=
  ⟨maxSize, [], 0, 0⟩

/-- `ExpressionCache.get_or_compile`: look up the digest of the source;
on a miss compile (propagating the parse error) and store.  The digest
function (`hashlib.md5(...).hexdigest()`) is host functionality, passed
in abstractly. -/
def getOrCompile (digest : String → String) (p : ParseFn) (c : LRUCache)
    (expr : String) : Except String (CompiledExpression × LRUCache) :=
  let key := digest expr
  match lruGet c key with
  | (some v, c1) => .ok (v, c1)
  | (none, c1) =>
      match compileExpression p expr with
      | .ok compiled => .ok (compiled, lruPut c1 key compiled)
      | .error m => .error m

/-- The cause carried by a top-level `ExpressionEvalError`: the
underlying `SyntaxError` when parsing inside `SafeEvaluator.eval`
failed, or the interpreter error the walk raised. -/
inductive ErrCause where
  | syntaxCause (msg : String)
  | evalCause (e : EvalErr)

/-- Errors `ExpressionEngine.evaluate` can surface: a
`SecurityViolationError` from the pre-execution sandbox check (carrying
the violation list), or an `ExpressionEvalError` wrapping whatever the
evaluator raised. -/
inductive EngineErr where
  | securityViolation (msgs : List String) (expr : String)
  | exprEvalError (expr : String) (cause : ErrCause)

/-- `SafeEvaluator.eval`: parse the source and walk the tree; any
failure (including a parse failure) is re-raised as an
`ExpressionEvalError` wrapping the original cause. -/
def safeEvalExpr (C : EvalCtx) (names : NameMap) (p : ParseFn)
    (expr : String) : Except EngineErr Val :=
  match p expr with
  | .error m => .error (.exprEvalError expr (.syntaxCause m))
  | .ok t =>
    match evalNode C t names with
    | .ok (v, _) => .ok v
    | .error e => .error (.exprEvalError expr (.evalCause e))

/-- `ExpressionEngine._add_math_constants`: copy the caller's context
(`dict(context)`) and append each of `e`, `pi`, `inf`, `nan` only when
the key is absent.  Because the source copies, the caller's dict is
never written through. -/
def addMathConstants (context : NameMap) : NameMap :=
  let r := context
  let r := if containsName r "e" then r else r ++ [("e", Val.mathConst "e")]
  let r := if containsName r "pi" then r else r ++ [("pi", Val.mathConst "pi")]
  let r := if containsName r "inf" then r else r ++ [("inf", Val.mathConst "inf")]
  let r := if containsName r "nan" then r else r ++ [("nan", Val.mathConst "nan")]
  r

/-- The engine's construction-time configuration: the registry's
callables dict (`get_all_callables()`), the host facilities, whether a
cache was constructed, and the sandbox flag and policy. -/
structure Engine where
  functions : NameMap
  host : Host
  cacheEnabled : Bool
  sandboxEnabled : Bool
  sandboxCfg : SandboxConfig

/-- `ExpressionEngine.evaluate`: merge the math constants into a copy
of the context, run the sandbox check when enabled (raising
`SecurityViolationError` with the violation list on any finding), then
build a fresh `SafeEvaluator` over the merged copy and the registry
callables and run it.  The result triple carries, besides the
evaluation outcome, the engine's cache state after the call and the
content of the caller's context dict after the call: the source never
touches `self._cache` in this method, and it rebinds `context` to the
fresh copy before any mutation, so both pass through unchanged. -/
def engineEvaluate (E : Engine) (p : ParseFn) (expr : String)
    (context : NameMap) (cache : LRUCache) :
    Except EngineErr Val × LRUCache × NameMap :=
  let merged := addMathConstants context
  if E.sandboxEnabled then
    match checkPure E.sandboxCfg p expr with
    | [] => (safeEvalExpr ⟨E.functions, E.host⟩ merged p expr, cache, context)
    | errs => (.error (.securityViolation errs expr), cache, context)
  else (safeEvalExpr ⟨E.functions, E.host⟩ merged p expr, cache, context)

/-- `ExpressionEngine.validate`: syntax-check the source, returning the
syntax error alone if parsing fails, else the sandbox checker's
violation list when sandboxing is enabled; never raises and never
executes. -/
def engineValidate (E : Engine) (p : ParseFn) (expr : String) : List String :=
  match p expr with
  | .error m => ["语法错误: " ++ m]
  | .ok _ => if E.sandboxEnabled then checkPure E.sandboxCfg p expr else []

/-- Classifies an engine outcome as "raises a parse error or a security
violation": a `SecurityViolationError` from the pre-execution check, or
an `ExpressionEvalError` whose cause is the parser's `SyntaxError`.
Evaluation-time errors (undefined names, operator failures, host
exceptions) are neither. -/
def parseOrSecurityFailure : Except EngineErr Val → Bool
  | .error (.securityViolation _ _) => true
  | .error (.exprEvalError _ (.syntaxCause _)) => true
  | _ => false

/-- A host with no reachable attributes and no callable results: the
engine-level concrete test vectors below never reach host calls, so any
host would do; this one makes the fixtures closed terms. -/
def trivialHost : Host where
  attr := fun _ _ => none
  applyCall := fun _ _ _ => .error (.hostError "opaque host call")
  isId := fun _ _ => false
  showOther := fun _ => ""

/-- The AST of `"[x for x in [1,2,3]]"`. -/
def compAst123 : Ast :=
  .listComp (.name "x")
    [(.name "x", .listLit [.constant (.int 1), .constant (.int 2), .constant (.int 3)], [])]

/-- The AST of `"a.b"`. -/
def astDotAB : Ast := .attrAccess (.name "a") "b"

/-- The AST of `"items[0]"`. -/
def astItems0 : Ast := .subscript (.name "items") (.constant (.int 0))

/-- The AST of `"eval('1+1')"`. -/
def astEvalCall : Ast := .call (.name "eval") [.constant (.str "1+1")] []

/-- The AST of `"2+2"`. -/
def astTwoPlusTwo : Ast := .binOp .add (.constant (.int 2)) (.constant (.int 2))

/-- The AST of `"2 + 3 * 4"`. -/
def astArith14 : Ast :=
  .binOp .add (.constant (.int 2))
    (.binOp .mult (.constant (.int 3)) (.constant (.int 4)))

/-- The AST of `"foo(1)"`. -/
def astFooCall : Ast := .call (.name "foo") [.constant (.int 1)] []

/-- A parse function fixing the documented CPython parses of the
concrete source strings used by the witnesses below; every other string
is a syntax error. -/
def pFixture : ParseFn := fun s =>
  if s = "[x for x in [1,2,3]]" then .ok compAst123
  else if s = "x" then .ok (.name "x")
  else if s = "a.b" then .ok astDotAB
  else if s = "items[0]" then .ok astItems0
  else if s = "eval('1+1')" then .ok astEvalCall
  else if s = "2+2" then .ok astTwoPlusTwo
  else if s = "2 + 3 * 4" then .ok astArith14
  else .error "invalid syntax"

/-- A default-configured engine (sandbox and cache enabled, empty
registry) over the trivial host. -/
def engineFixture : Engine where
  functions := []
  host := trivialHost
  cacheEnabled := true
  sandboxEnabled := true
  sandboxCfg := defaultSandboxConfig

/-- A list comprehension nested to depth `n`:
`[[… [1 for x in [1]] …] for x in [1]]`; at depth `0` it is the bare
constant `1`.  Each additional level adds one generator clause, so the
evaluator's `_eval_generators` recursion depth grows with `n`. -/
def nestComp : Nat → Ast
  | 0 => .constant (.int 1)
  | n + 1 => .listComp (nestComp n) [(.name "x", .listLit [.constant (.int 1)], [])]

/-- The value `nestComp n` evaluates to: `1` wrapped in `n` singleton
lists. -/
def nestVal : Nat → Val
  | 0 => .int 1
  | n + 1 => .list [nestVal n]

/-- C1: a bare identifier resolves against the functions dict first,
then the names dict, then the literal constants `True`/`False`/`None`,
and otherwise evaluation fails with `UndefinedVariableError` naming the
identifier; in particular a registered function shadows a same-named
context variable, since the names dict is consulted only when the
functions dict misses. -/
theorem name_resolution_order (C : EvalCtx) (st : NameMap) (n : String) :
    (∀ v, lookupName C.functions n = some v → evalNode C (.name n) st = .ok (v, st)) ∧
    (∀ v, lookupName C.functions n = none → lookupName st n = some v →
      evalNode C (.name n) st = .ok (v, st)) ∧
    (lookupName C.functions n = none → lookupName st n = none →
      n ≠ "True" → n ≠ "False" → n ≠ "None" →
      evalNode C (.name n) st = .error (.undefinedVariable n)) ∧
    (lookupName C.functions "True" = none → lookupName st "True" = none →
      evalNode C (.name "True") st = .ok (.bool true, st)) ∧
    (lookupName C.functions "False" = none → lookupName st "False" = none →
      evalNode C (.name "False") st = .ok (.bool false, st)) ∧
    (lookupName C.functions "None" = none → lookupName st "None" = none →
      evalNode C (.name "None") st = .ok (.pyNone, st)) := by
  refine ⟨?_, ?_, ?_, ?_, ?_, ?_⟩ <;> intros <;> simp [evalNode, *]

/-- Witness for C1 at concrete inputs: the function entry for `f`
shadows the context binding of `f`, and the unbound name `z` yields
`UndefinedVariableError "z"`. -/
theorem name_resolution_order_witness :
    evalNode ⟨[("f", .callable "f")], trivialHost⟩ (.name "f")
      [("f", .str "shadowed"), ("y", .int 7)] =
      .ok (.callable "f", [("f", .str "shadowed"), ("y", .int 7)]) ∧
    evalNode ⟨[("f", .callable "f")], trivialHost⟩ (.name "z")
      [("f", .str "shadowed"), ("y", .int 7)] =
      .error (.undefinedVariable "z") := by
  constructor
  · exact (name_resolution_order ⟨[("f", .callable "f")], trivialHost⟩
      [("f", .str "shadowed"), ("y", .int 7)] "f").1 (.callable "f")
      (by simp [lookupName])
  · exact (name_resolution_order ⟨[("f", .callable "f")], trivialHost⟩
      [("f", .str "shadowed"), ("y", .int 7)] "z").2.2.1
      (by simp [lookupName]) (by simp [lookupName])
      (by decide) (by decide) (by decide)

/-- A successful `and`-chain evaluation always produces a canonical
boolean, never one of the operand values. -/
theorem evalAndChain_ok_shape (C : EvalCtx) :
    ∀ (vs : List Ast) (st : NameMap) (r : Val × NameMap),
      evalAndChain C vs st = .ok r → ∃ b, r.1 = .bool b := by
  intro vs
  induction vs with
  | nil =>
      intro st r h
      simp only [evalAndChain] at h
      injection h with h'
      exact ⟨true, by rw [← h']⟩
  | cons a rest ih =>
      intro st r h
      simp only [evalAndChain] at h
      rcases he : evalNode C a st with e | vp
      · rw [he] at h
        simp [bind, Except.bind] at h
      · rw [he] at h
        obtain ⟨v, st1⟩ := vp
        simp only [bind, Except.bind] at h
        rcases htv : truthy v with _ | _ <;> rw [htv] at h
        · simp only [Bool.false_eq_true, if_false, pure, Except.pure] at h
          injection h with h'
          exact ⟨false, by rw [← h']⟩
        · simp only [if_true] at h
          exact ih st1 r h

/-- A successful `or`-chain evaluation always produces a canonical
boolean, never one of the operand values. -/
theorem evalOrChain_ok_shape (C : EvalCtx) :
    ∀ (vs : List Ast) (st : NameMap) (r : Val × NameMap),
      evalOrChain C vs st = .ok r → ∃ b, r.1 = .bool b := by
  intro vs
  induction vs with
  | nil =>
      intro st r h
      simp only [evalOrChain] at h
      injection h with h'
      exact ⟨false, by rw [← h']⟩
  | cons a rest ih =>
      intro st r h
      simp only [evalOrChain] at h
      rcases he : evalNode C a st with e | vp
      · rw [he] at h
        simp [bind, Except.bind] at h
      · rw [he] at h
        obtain ⟨v, st1⟩ := vp
        simp only [bind, Except.bind] at h
        rcases htv : truthy v with _ | _ <;> rw [htv] at h
        · simp only [Bool.false_eq_true, if_false] at h
          exact ih st1 r h
        · simp only [if_true, pure, Except.pure] at h
          injection h with h'
          exact ⟨true, by rw [← h']⟩

/-- C9: boolean `and`/`or` always yield a canonical boolean — `and`
returns `False` at the first falsy operand (the remaining operands are
not evaluated: the result is fixed even if they would fail) and `True`
otherwise; `or` returns `True` at the first truthy operand and `False`
otherwise; `"2 and 3"` evaluates to `True`, not to Python's own value
semantics result `3`. -/
theorem boolop_returns_canonical_bool :
    (∀ (C : EvalCtx) (op : BoolOpKind) (vs : List Ast) (st : NameMap) (r : Val × NameMap),
      evalNode C (.boolOp op vs) st = .ok r → ∃ b, r.1 = .bool b) ∧
    (∀ (C : EvalCtx) (e : Ast) (vs : List Ast) (st : NameMap) (v : Val) (st' : NameMap),
      evalNode C e st = .ok (v, st') → truthy v = false →
      evalNode C (.boolOp .andOp (e :: vs)) st = .ok (.bool false, st')) ∧
    (∀ (C : EvalCtx) (e : Ast) (vs : List Ast) (st : NameMap) (v : Val) (st' : NameMap),
      evalNode C e st = .ok (v, st') → truthy v = true →
      evalNode C (.boolOp .orOp (e :: vs)) st = .ok (.bool true, st')) ∧
    (∀ (C : EvalCtx) (st : NameMap),
      evalNode C (.boolOp .andOp [.constant (.int 2), .constant (.int 3)]) st =
        .ok (.bool true, st)) ∧
    (∀ (C : EvalCtx) (st : NameMap),
      evalNode C (.boolOp .orOp [.constant (.int 0), .constant (.str "")]) st =
        .ok (.bool false, st)) := by
  refine ⟨?_, ?_, ?_, ?_, ?_⟩
  · intro C op vs st r h
    cases op
    · simp only [evalNode] at h
      exact evalAndChain_ok_shape C vs st r h
    · simp only [evalNode] at h
      exact evalOrChain_ok_shape C vs st r h
  · intro C e vs st v st' he htv
    simp [evalNode, evalAndChain, he, htv, bind, Except.bind, pure, Except.pure]
  · intro C e vs st v st' he htv
    simp [evalNode, evalOrChain, he, htv, bind, Except.bind, pure, Except.pure]
  · intro C st
    simp [evalNode, evalAndChain, evalOrChain, truthy, bind, Except.bind, pure, Except.pure]
  · intro C st
    simp [evalNode, evalAndChain, evalOrChain, truthy, bind, Except.bind, pure, Except.pure]

/-- Witness for C9 at concrete inputs: a falsy first operand
short-circuits `and` to `False` even though the second operand would
raise `UndefinedVariableError`, and dually for `or`. -/
theorem boolop_returns_canonical_bool_witness :
    evalNode ⟨[], trivialHost⟩
      (.boolOp .andOp [.constant (.int 0), .name "missingName"]) [] =
      .ok (.bool false, []) ∧
    evalNode ⟨[], trivialHost⟩
      (.boolOp .orOp [.constant (.int 5), .name "missingName"]) [] =
      .ok (.bool true, []) := by
  refine ⟨?_, ?_⟩
  · exact boolop_returns_canonical_bool.2.1 ⟨[], trivialHost⟩
      (.constant (.int 0)) [.name "missingName"] [] (.int 0) []
      (by simp [evalNode]) (by decide)
  · exact boolop_returns_canonical_bool.2.2.1 ⟨[], trivialHost⟩
      (.constant (.int 5)) [.name "missingName"] [] (.int 5) []
      (by simp [evalNode]) (by decide)

/-- A successful list-comprehension evaluation restores the incoming
name table (`self.names = saved_names`). -/
theorem evalNode_listComp_restores (C : EvalCtx) (elt : Ast)
    (gens : List (Ast × Ast × List Ast)) (st : NameMap) :
    ∀ (v : Val) (st' : NameMap),
      evalNode C (.listComp elt gens) st = .ok (v, st') → st' = st := by
  intro v st' h
  simp only [evalNode] at h
  rcases hg : evalGens C (.single elt) gens st with e | op <;> rw [hg] at h <;>
    simp [bind, Except.bind, pure, Except.pure] at h
  exact h.2.symm

/-- A successful set-comprehension evaluation restores the incoming
name table. -/
theorem evalNode_setComp_restores (C : EvalCtx) (elt : Ast)
    (gens : List (Ast × Ast × List Ast)) (st : NameMap) :
    ∀ (v : Val) (st' : NameMap),
      evalNode C (.setComp elt gens) st = .ok (v, st') → st' = st := by
  intro v st' h
  simp only [evalNode] at h
  rcases hg : evalGens C (.single elt) gens st with e | op <;> rw [hg] at h <;>
    simp [bind, Except.bind, pure, Except.pure] at h
  exact h.2.symm

/-- A successful dict-comprehension evaluation restores the incoming
name table. -/
theorem evalNode_dictComp_restores (C : EvalCtx) (k vAst : Ast)
    (gens : List (Ast × Ast × List Ast)) (st : NameMap) :
    ∀ (v : Val) (st' : NameMap),
      evalNode C (.dictComp k vAst gens) st = .ok (v, st') → st' = st := by
  intro v st' h
  simp only [evalNode] at h
  rcases hg : evalGens C (.pair k vAst) gens st with e | op <;> rw [hg] at h <;>
    simp [bind, Except.bind, pure, Except.pure] at h
  exact h.2.symm

/-- A successful generator-expression evaluation restores the incoming
name table. -/
theorem evalNode_genExp_restores (C : EvalCtx) (elt : Ast)
    (gens : List (Ast × Ast × List Ast)) (st : NameMap) :
    ∀ (v : Val) (st' : NameMap),
      evalNode C (.generatorExp elt gens) st = .ok (v, st') → st' = st := by
  intro v st' h
  simp only [evalNode] at h
  rcases hg : evalGens C (.single elt) gens st with e | op <;> rw [hg] at h <;>
    simp [bind, Except.bind, pure, Except.pure] at h
  exact h.2.symm

set_option maxHeartbeats 2000000 in
/-- The interpreter evaluation of `[x for x in [1,2,3]]` over the
constants-merged context `{"x": "outer", e, pi, inf, nan}`, for any
registry without an `x` entry: the result is `[1, 2, 3]` and the name
table comes back unchanged. -/
theorem evalNode_compAst123_eval (F : NameMap) (H : Host)
    (hf : lookupName F "x" = none) :
    evalNode (⟨F, H⟩ : EvalCtx) compAst123
      [("x", .str "outer"), ("e", .mathConst "e"), ("pi", .mathConst "pi"),
       ("inf", .mathConst "inf"), ("nan", .mathConst "nan")] =
      .ok (.list [.int 1, .int 2, .int 3],
        [("x", .str "outer"), ("e", .mathConst "e"), ("pi", .mathConst "pi"),
         ("inf", .mathConst "inf"), ("nan", .mathConst "nan")]) := by
  simp only [compAst123]
  simp [evalNode, evalGens, evalItems, evalIfs, evalCompBody,
    evalSeq, bindTarget, iterVals, compLefts, storeName, lookupName, hf,
    bind, Except.bind, pure, Except.pure]

set_option maxHeartbeats 2000000 in
/-- The default safety check accepts `[x for x in [1,2,3]]`. -/
theorem checkPure_compAst123 (p : ParseFn)
    (hp1 : p "[x for x in [1,2,3]]" = .ok compAst123) :
    checkPure defaultSandboxConfig p "[x for x in [1,2,3]]" = [] := by
  have hx : defaultSandboxConfig.forbiddenNames.contains "x" = false := by decide
  simp only [checkPure, hp1]
  simp only [compAst123, checkVisit, checkGens, checkSeq, nameViolations, hx]
  simp

/-- C2: every comprehension (list/set/dict/generator) snapshots the
ambient name table before iterating and restores it on successful exit,
so comprehension-local bindings never leak — the output name table
equals the input one for any comprehension, however nested its contents
are; and at engine level, evaluating `"[x for x in [1,2,3]]"` with
context `{"x": "outer"}` yields `[1, 2, 3]` while a later independent
`evaluate("x", context)` still yields `"outer"`. -/
theorem comprehension_scope_isolation :
    (∀ (C : EvalCtx) (elt : Ast) (gens : List (Ast × Ast × List Ast))
        (st : NameMap) (v : Val) (st' : NameMap),
      evalNode C (.listComp elt gens) st = .ok (v, st') → st' = st) ∧
    (∀ (C : EvalCtx) (elt : Ast) (gens : List (Ast × Ast × List Ast))
        (st : NameMap) (v : Val) (st' : NameMap),
      evalNode C (.setComp elt gens) st = .ok (v, st') → st' = st) ∧
    (∀ (C : EvalCtx) (k vAst : Ast) (gens : List (Ast × Ast × List Ast))
        (st : NameMap) (v : Val) (st' : NameMap),
      evalNode C (.dictComp k vAst gens) st = .ok (v, st') → st' = st) ∧
    (∀ (C : EvalCtx) (elt : Ast) (gens : List (Ast × Ast × List Ast))
        (st : NameMap) (v : Val) (st' : NameMap),
      evalNode C (.generatorExp elt gens) st = .ok (v, st') → st' = st) ∧
    (∀ (F : NameMap) (H : Host) (ce : Bool) (p : ParseFn) (c c' : LRUCache),
      p "[x for x in [1,2,3]]" = .ok compAst123 →
      p "x" = .ok (.name "x") →
      lookupName F "x" = none →
      (engineEvaluate ⟨F, H, ce, true, defaultSandboxConfig⟩ p
          "[x for x in [1,2,3]]" [("x", .str "outer")] c).1 =
        .ok (.list [.int 1, .int 2, .int 3]) ∧
      (engineEvaluate ⟨F, H, ce, true, defaultSandboxConfig⟩ p
          "x" [("x", .str "outer")] c').1 = .ok (.str "outer")) := by
  refine ⟨fun C elt gens st v st' => evalNode_listComp_restores C elt gens st v st',
    fun C elt gens st v st' => evalNode_setComp_restores C elt gens st v st',
    fun C k vAst gens st v st' => evalNode_dictComp_restores C k vAst gens st v st',
    fun C elt gens st v st' => evalNode_genExp_restores C elt gens st v st', ?_⟩
  intro F H ce p c c' hp1 hp2 hf
  have hx : defaultSandboxConfig.forbiddenNames.contains "x" = false := by decide
  have hm : addMathConstants [("x", Val.str "outer")] =
      [("x", .str "outer"), ("e", .mathConst "e"), ("pi", .mathConst "pi"),
       ("inf", .mathConst "inf"), ("nan", .mathConst "nan")] := by rfl
  constructor
  all_goals simp only [engineEvaluate]
  · simp only [checkPure_compAst123 p hp1, safeEvalExpr, hp1, hm,
      evalNode_compAst123_eval F H hf, if_true]
  · have hcheck : checkPure defaultSandboxConfig p "x" = [] := by
      simp only [checkPure, hp2]
      simp only [checkVisit, nameViolations, hx]
      simp
    have hev : evalNode (⟨F, H⟩ : EvalCtx) (.name "x")
        [("x", .str "outer"), ("e", .mathConst "e"), ("pi", .mathConst "pi"),
         ("inf", .mathConst "inf"), ("nan", .mathConst "nan")] =
        .ok (.str "outer",
          [("x", .str "outer"), ("e", .mathConst "e"), ("pi", .mathConst "pi"),
           ("inf", .mathConst "inf"), ("nan", .mathConst "nan")]) := by
      simp [evalNode, lookupName, hf]
    simp only [hcheck, safeEvalExpr, hp2, hm, hev, if_true]

/-- Witness for C2 at concrete inputs: the scope-restore part applied to
the evaluation of `[x for x in [1,2,3]]` over `{"x": "outer"}`, and the
engine-level vector under the fixture parse function. -/
theorem comprehension_scope_isolation_witness :
    (evalNode ⟨[], trivialHost⟩ compAst123 [("x", .str "outer")] =
        .ok (.list [.int 1, .int 2, .int 3], [("x", .str "outer")]) →
      [("x", .str "outer")] = ([("x", .str "outer")] : NameMap)) ∧
    (engineEvaluate ⟨[], trivialHost, true, true, defaultSandboxConfig⟩ pFixture
        "[x for x in [1,2,3]]" [("x", .str "outer")] (emptyCache 1000)).1 =
      .ok (.list [.int 1, .int 2, .int 3]) ∧
    (engineEvaluate ⟨[], trivialHost, true, true, defaultSandboxConfig⟩ pFixture
        "x" [("x", .str "outer")] (emptyCache 1000)).1 = .ok (.str "outer") := by
  have h := comprehension_scope_isolation.2.2.2.2 [] trivialHost true pFixture
    (emptyCache 1000) (emptyCache 1000) (by rfl) (by rfl) (by rfl)
  exact ⟨fun hc => comprehension_scope_isolation.1 ⟨[], trivialHost⟩ (.name "x")
    [(.name "x", .listLit [.constant (.int 1), .constant (.int 2), .constant (.int 3)], [])]
    [("x", .str "outer")] (.list [.int 1, .int 2, .int 3]) [("x", .str "outer")]
    (by rw [← compAst123]; exact hc), h.1, h.2⟩

/-- Attribute access on a dict receiver is a key lookup with `None`
default: it never fails, whatever the host attribute table says. -/
theorem evalNode_attr_dict (C : EvalCtx) (vAst : Ast) (a : String)
    (st : NameMap) (d : List (Val × Val)) (st' : NameMap)
    (h : evalNode C vAst st = .ok (.dict d, st')) :
    evalNode C (.attrAccess vAst a) st =
      .ok ((dictFind d (.str a)).getD .pyNone, st') := by
  simp only [evalNode, h, bind, Except.bind, pure, Except.pure]

/-- Attribute access on a non-dict receiver delegates to host member
access and succeeds exactly when the host lookup does. -/
theorem evalNode_attr_nondict (C : EvalCtx) (vAst : Ast) (a : String)
    (st : NameMap) (v : Val) (st' : NameMap)
    (h : evalNode C vAst st = .ok (v, st')) (hd : ∀ es, v ≠ .dict es) :
    evalNode C (.attrAccess vAst a) st =
      (match C.host.attr v a with
       | some w => .ok (w, st')
       | none => .error (.attributeError a)) := by
  cases v
  case dict es => exact (hd es rfl).elim
  all_goals simp only [evalNode, h, bind, Except.bind, pure, Except.pure]

/-- The engine-level boundary vector `evaluate("a.b", {"a": {}})`:
returns `None`, not an error. -/
theorem engine_dotAB_vector (F : NameMap) (H : Host) (ce : Bool)
    (p : ParseFn) (c : LRUCache)
    (hp : p "a.b" = .ok astDotAB) (hfa : lookupName F "a" = none) :
    (engineEvaluate ⟨F, H, ce, true, defaultSandboxConfig⟩ p "a.b"
        [("a", .dict [])] c).1 = .ok .pyNone := by
  have hcheck : checkPure defaultSandboxConfig p "a.b" = [] := by
    simp only [checkPure, hp]
    simp only [astDotAB, checkVisit, nameViolations,
      (show attrViolations defaultSandboxConfig "b" = [] by decide),
      (show defaultSandboxConfig.forbiddenNames.contains "a" = false by decide)]
    simp
  have hm : addMathConstants [("a", Val.dict [])] =
      [("a", .dict []), ("e", .mathConst "e"), ("pi", .mathConst "pi"),
       ("inf", .mathConst "inf"), ("nan", .mathConst "nan")] := by rfl
  have hev : evalNode (⟨F, H⟩ : EvalCtx) astDotAB
      [("a", .dict []), ("e", .mathConst "e"), ("pi", .mathConst "pi"),
       ("inf", .mathConst "inf"), ("nan", .mathConst "nan")] =
      .ok (.pyNone,
        [("a", .dict []), ("e", .mathConst "e"), ("pi", .mathConst "pi"),
         ("inf", .mathConst "inf"), ("nan", .mathConst "nan")]) := by
    simp [astDotAB, evalNode, lookupName, hfa, dictFind, bind, Except.bind,
      pure, Except.pure]
  simp only [engineEvaluate, hcheck, safeEvalExpr, hp, hm, hev, if_true]

/-- The engine-level boundary vector `evaluate("items[0]", {"items":
[]})`: raises, wrapping the host `IndexError`. -/
theorem engine_items0_vector (F : NameMap) (H : Host) (ce : Bool)
    (p : ParseFn) (c : LRUCache)
    (hp : p "items[0]" = .ok astItems0) (hfi : lookupName F "items" = none) :
    (engineEvaluate ⟨F, H, ce, true, defaultSandboxConfig⟩ p "items[0]"
        [("items", .list [])] c).1 =
      .error (.exprEvalError "items[0]" (.evalCause .indexError)) := by
  have hcheck : checkPure defaultSandboxConfig p "items[0]" = [] := by
    simp only [checkPure, hp]
    simp only [astItems0, checkVisit, nameViolations,
      (show defaultSandboxConfig.forbiddenNames.contains "items" = false by decide)]
    simp
  have hm : addMathConstants [("items", Val.list [])] =
      [("items", .list []), ("e", .mathConst "e"), ("pi", .mathConst "pi"),
       ("inf", .mathConst "inf"), ("nan", .mathConst "nan")] := by rfl
  have hev : evalNode (⟨F, H⟩ : EvalCtx) astItems0
      [("items", .list []), ("e", .mathConst "e"), ("pi", .mathConst "pi"),
       ("inf", .mathConst "inf"), ("nan", .mathConst "nan")] =
      .error .indexError := by
    simp [astItems0, evalNode, lookupName, hfi, getItem, Val.asNum, seqIndex,
      bind, Except.bind, pure, Except.pure]
  simp only [engineEvaluate, hcheck, safeEvalExpr, hp, hm, hev, if_true]

/-- C7: attribute access distinguishes receivers — a dict receiver is
read by key lookup and yields `None` when the key is missing, with no
error, while a non-dict receiver uses ordinary (host) member access and
a lookup failure propagates as an error; concretely,
`evaluate("a.b", {"a": {}})` returns `None` while
`evaluate("items[0]", {"items": []})` raises the wrapped
`IndexError`. -/
theorem attribute_dict_vs_member_access :
    (∀ (C : EvalCtx) (vAst : Ast) (a : String) (st : NameMap)
        (d : List (Val × Val)) (st' : NameMap),
      evalNode C vAst st = .ok (.dict d, st') →
      evalNode C (.attrAccess vAst a) st =
        .ok ((dictFind d (.str a)).getD .pyNone, st')) ∧
    (∀ (C : EvalCtx) (vAst : Ast) (a : String) (st : NameMap) (v : Val)
        (st' : NameMap) (w : Val),
      evalNode C vAst st = .ok (v, st') → (∀ es, v ≠ .dict es) →
      C.host.attr v a = some w →
      evalNode C (.attrAccess vAst a) st = .ok (w, st')) ∧
    (∀ (C : EvalCtx) (vAst : Ast) (a : String) (st : NameMap) (v : Val)
        (st' : NameMap),
      evalNode C vAst st = .ok (v, st') → (∀ es, v ≠ .dict es) →
      C.host.attr v a = none →
      evalNode C (.attrAccess vAst a) st = .error (.attributeError a)) ∧
    (∀ (F : NameMap) (H : Host) (ce : Bool) (p : ParseFn) (c c' : LRUCache),
      p "a.b" = .ok astDotAB → p "items[0]" = .ok astItems0 →
      lookupName F "a" = none → lookupName F "items" = none →
      (engineEvaluate ⟨F, H, ce, true, defaultSandboxConfig⟩ p "a.b"
          [("a", .dict [])] c).1 = .ok .pyNone ∧
      (engineEvaluate ⟨F, H, ce, true, defaultSandboxConfig⟩ p "items[0]"
          [("items", .list [])] c').1 =
        .error (.exprEvalError "items[0]" (.evalCause .indexError))) := by
  refine ⟨evalNode_attr_dict, ?_, ?_, ?_⟩
  · intro C vAst a st v st' w h hd hw
    rw [evalNode_attr_nondict C vAst a st v st' h hd, hw]
  · intro C vAst a st v st' h hd hw
    rw [evalNode_attr_nondict C vAst a st v st' h hd, hw]
  · intro F H ce p c c' hp1 hp2 hfa hfi
    exact ⟨engine_dotAB_vector F H ce p c hp1 hfa,
      engine_items0_vector F H ce p c' hp2 hfi⟩

/-- Witness for C7 at concrete inputs: the dict branch applied to
`a.b` over `{"a": {}}` (giving `None`), the non-dict error branch
applied where the trivial host has no attributes, and the two
engine-level vectors under the fixture parse function. -/
theorem attribute_dict_vs_member_access_witness :
    evalNode ⟨[], trivialHost⟩ (.attrAccess (.name "a") "b") [("a", .dict [])] =
      .ok (.pyNone, [("a", .dict [])]) ∧
    evalNode ⟨[], trivialHost⟩ (.attrAccess (.constant (.int 3)) "b") [] =
      .error (.attributeError "b") ∧
    (engineEvaluate ⟨[], trivialHost, true, true, defaultSandboxConfig⟩ pFixture
        "a.b" [("a", .dict [])] (emptyCache 1000)).1 = .ok .pyNone ∧
    (engineEvaluate ⟨[], trivialHost, true, true, defaultSandboxConfig⟩ pFixture
        "items[0]" [("items", .list [])] (emptyCache 1000)).1 =
      .error (.exprEvalError "items[0]" (.evalCause .indexError)) := by
  have h := attribute_dict_vs_member_access
  have he := h.2.2.2 [] trivialHost true pFixture (emptyCache 1000)
    (emptyCache 1000) (by rfl) (by rfl) (by rfl) (by rfl)
  refine ⟨?_, ?_, he.1, he.2⟩
  · have := h.1 ⟨[], trivialHost⟩ (.name "a") "b" [("a", .dict [])] []
      [("a", .dict [])] (by simp [evalNode, lookupName])
    simpa [dictFind] using this
  · exact h.2.2.1 ⟨[], trivialHost⟩ (.constant (.int 3)) "b" [] (.int 3) []
      (by simp [evalNode]) (by intro es; simp) (by rfl)

/-- C5 (against the code): `SafeEvaluator` maintains no depth counter —
it does not even receive a sandbox policy, so `max_recursion_depth`
cannot reach it, and the error type `EvalErr` (the closed enumeration
of everything `_eval_node` raises) has no recursion-limit constructor.
Evaluating a list comprehension nested to any depth `n`, including any
depth exceeding any configured `max_recursion_depth`, succeeds and
returns the `n`-fold singleton list, rather than raising
`RecursionLimitError`; in the Python runtime the corresponding
unbounded recursion is bounded only by the host interpreter stack. -/
theorem nested_comprehension_never_recursion_limited (n : Nat) :
    ∀ (C : EvalCtx) (st : NameMap),
      evalNode C (nestComp n) st = .ok (nestVal n, st) := by
  induction n with
  | zero => intro C st; simp [nestComp, nestVal, evalNode]
  | succ n ih =>
      intro C st
      simp [nestComp, nestVal, evalNode, evalGens, evalItems, evalIfs,
        evalCompBody, evalSeq, bindTarget, iterVals, compLefts, storeName,
        bind, Except.bind, pure, Except.pure, ih]

/-- C8: `SafetyChecker.check` resets `self.errors` before each walk, so
its result is a pure deterministic function of the policy and source
text, independent of the checker's accumulated state from earlier
calls; `check("eval('1+1')")` is non-empty (`eval` is a forbidden name,
flagged both as call target and as bare name) and `check("2+2")` is
empty. -/
theorem safety_check_deterministic :
    (∀ (cfg : SandboxConfig) (p : ParseFn) (src : String)
        (prev1 prev2 : List String),
      (checkerCheck cfg p src prev1).1 = (checkerCheck cfg p src prev2).1) ∧
    (∀ (p : ParseFn) (prev : List String), p "eval('1+1')" = .ok astEvalCall →
      (checkerCheck defaultSandboxConfig p "eval('1+1')" prev).1 =
        ["禁止调用函数: eval", "禁止访问名称: eval"]) ∧
    (∀ (p : ParseFn) (prev : List String), p "2+2" = .ok astTwoPlusTwo →
      (checkerCheck defaultSandboxConfig p "2+2" prev).1 = []) := by
  refine ⟨fun _ _ _ _ _ => rfl, ?_, ?_⟩
  · intro p prev hp
    simp only [checkerCheck, checkPure, hp]
    simp only [astEvalCall, checkVisit, checkSeq, checkKws, callViolations,
      nameViolations,
      (show defaultSandboxConfig.forbiddenNames.contains "eval" = true by decide)]
    simp
  · intro p prev hp
    simp only [checkerCheck, checkPure, hp]
    simp only [astTwoPlusTwo, checkVisit]

/-- Witness for C8 at concrete inputs: under the fixture parse
function, two checker calls on `"2+2"` from different prior states
agree, `check("eval('1+1')")` is the two-violation list, and
`check("2+2")` is empty, even from a stale non-empty checker state. -/
theorem safety_check_deterministic_witness :
    (checkerCheck defaultSandboxConfig pFixture "2+2" []).1 =
      (checkerCheck defaultSandboxConfig pFixture "2+2" ["stale"]).1 ∧
    (checkerCheck defaultSandboxConfig pFixture "eval('1+1')" ["stale"]).1 =
      ["禁止调用函数: eval", "禁止访问名称: eval"] ∧
    (checkerCheck defaultSandboxConfig pFixture "2+2" ["stale"]).1 = [] :=
  ⟨safety_check_deterministic.1 defaultSandboxConfig pFixture "2+2" [] ["stale"],
   safety_check_deterministic.2.1 pFixture ["stale"] (by rfl),
   safety_check_deterministic.2.2 pFixture ["stale"] (by rfl)⟩

/-- C4 counterexample: analyzing `"foo(1)"` with an empty
known-function set puts `foo` in the **variables** set (as well as in
the functions set), contradicting the claim that a call target is not
in the variables set: `visit_Call` discards `foo` from the variables
and adds it to the functions, but `generic_visit` then visits the
`Name` child `foo`, which — not being a known function — is added back
to the variables. -/
theorem analyzer_call_target_in_variables :
    "foo" ∈ (analyzeAst [] astFooCall).1 ∧ "foo" ∈ (analyzeAst [] astFooCall).2 := by
  simp only [astFooCall, analyzeAst, anaVisit, anaKws, anaSeq, callRegister,
    nameRegister, insertStr]
  simp [List.mem_mergeSort]

/-- C4 amended: any identifier used as a direct call target lands in
the returned functions set; it is additionally reported as a variable
if and only if it is not in `knownFunctionNames` — the `visit_Call`
discard happens before `generic_visit` re-visits the target `Name`
child, so call-position does not suppress the bare-reference
classification for unknown names. -/
theorem analyzer_call_target_classification (K : List String) (f : String)
    (h1 : f ≠ "True") (h2 : f ≠ "False") (h3 : f ≠ "None") :
    f ∈ (analyzeAst K (.call (.name f) [.constant (.int 1)] [])).2 ∧
    (f ∈ (analyzeAst K (.call (.name f) [.constant (.int 1)] [])).1 ↔
      K.contains f = false) := by
  simp only [analyzeAst, anaVisit, anaKws, anaSeq, callRegister, nameRegister,
    insertStr]
  rcases hk : K.contains f with _ | _ <;>
    simp [List.mem_mergeSort, h1, h2, h3, hk, insertStr]

/-- Witness for the amended C4 at concrete inputs: with
`knownFunctionNames = ["bar"]`, `foo` in `"foo(1)"` is classified both
as a function and as a variable. -/
theorem analyzer_call_target_classification_witness :
    "foo" ∈ (analyzeAst ["bar"] (.call (.name "foo") [.constant (.int 1)] [])).2 ∧
    ("foo" ∈ (analyzeAst ["bar"] (.call (.name "foo") [.constant (.int 1)] [])).1 ↔
      (["bar"].contains "foo") = false) :=
  analyzer_call_target_classification ["bar"] "foo"
    (by decide) (by decide) (by decide)

/-- C6: `validate` (a total function into a string list — it never
raises) returns the empty list exactly when `evaluate` on the same
source — with any context and cache — does not fail with a parse-caused
error or a security violation: a malformed source makes `validate`
non-empty and makes `evaluate` raise (the wrapped `SyntaxError` without
sandboxing, or a `SecurityViolationError` carrying the syntax message
with sandboxing, the checker re-parsing the text); a well-formed source
with checker findings makes both sides fail; and with `validate` empty,
`evaluate` can only succeed or raise an evaluation-time error, which is
neither a parse error nor a security violation. -/
theorem validate_iff_no_parse_or_security_failure
    (E : Engine) (p : ParseFn) (expr : String) (ctx : NameMap)
    (cache : LRUCache) :
    engineValidate E p expr = [] ↔
      parseOrSecurityFailure (engineEvaluate E p expr ctx cache).1 = false := by
  cases hp : p expr with
  | error m =>
      cases hsb : E.sandboxEnabled with
      | true =>
          have hc : checkPure E.sandboxCfg p expr = ["语法错误: " ++ m] := by
            simp [checkPure, hp]
          simp [engineValidate, hp, engineEvaluate, hsb, hc, parseOrSecurityFailure]
      | false =>
          simp [engineValidate, hp, engineEvaluate, hsb, safeEvalExpr,
            parseOrSecurityFailure]
  | ok t =>
      cases hsb : E.sandboxEnabled with
      | true =>
          cases hc : checkPure E.sandboxCfg p expr with
          | nil =>
              simp only [engineValidate, hp, engineEvaluate, hsb, hc, if_true]
              rcases hev : evalNode ⟨E.functions, E.host⟩ t (addMathConstants ctx)
                  with e | pr <;>
                simp [safeEvalExpr, hp, hev, parseOrSecurityFailure]
          | cons a rest =>
              simp [engineValidate, hp, engineEvaluate, hsb, hc,
                parseOrSecurityFailure]
      | false =>
          simp only [engineValidate, hp, engineEvaluate, hsb, Bool.false_eq_true,
            if_false]
          rcases hev : evalNode ⟨E.functions, E.host⟩ t (addMathConstants ctx)
              with e | pr <;>
            simp [safeEvalExpr, hp, hev, parseOrSecurityFailure]

/-- C3 (against the code): `ExpressionEngine.evaluate` never consults
the expression cache — the cache state passes through every evaluation
unchanged, so evaluating the same source twice leaves the hit and miss
counters at zero and the cache empty, while the (uncalled)
`ExpressionCache.get_or_compile` itself would have recorded a miss
followed by a hit. -/
theorem engine_evaluate_bypasses_cache :
    (∀ (E : Engine) (p : ParseFn) (expr : String) (ctx : NameMap)
        (c : LRUCache), (engineEvaluate E p expr ctx c).2.1 = c) ∧
    (engineEvaluate engineFixture pFixture "2 + 3 * 4" [] (emptyCache 1000)).1 =
      .ok (.int 14) ∧
    (engineEvaluate engineFixture pFixture "2 + 3 * 4" []
        (engineEvaluate engineFixture pFixture "2 + 3 * 4" []
          (emptyCache 1000)).2.1).2.1 = emptyCache 1000 ∧
    (emptyCache 1000).hits = 0 ∧ (emptyCache 1000).misses = 0 ∧
    (emptyCache 1000).entries.length = 0 ∧
    (∀ digest : String → String,
      ∃ ce c1 c2,
        getOrCompile digest pFixture (emptyCache 1000) "2 + 3 * 4" = .ok (ce, c1) ∧
        c1.misses = 1 ∧ c1.hits = 0 ∧
        getOrCompile digest pFixture c1 "2 + 3 * 4" = .ok (ce, c2) ∧
        c2.hits = 1 ∧ c2.misses = 1) := by
  have hpass : ∀ (E : Engine) (p : ParseFn) (expr : String) (ctx : NameMap)
      (c : LRUCache), (engineEvaluate E p expr ctx c).2.1 = c := by
    intro E p expr ctx c
    cases hsb : E.sandboxEnabled with
    | true =>
        cases hc : checkPure E.sandboxCfg p expr <;>
          simp [engineEvaluate, hsb, hc]
    | false => simp [engineEvaluate, hsb]
  have hcheck : checkPure defaultSandboxConfig pFixture "2 + 3 * 4" = [] := by
    simp only [checkPure, (show pFixture "2 + 3 * 4" = .ok astArith14 by rfl)]
    simp only [astArith14, checkVisit]
  refine ⟨hpass, ?_, ?_, rfl, rfl, rfl, ?_⟩
  · have hev : evalNode (⟨[], trivialHost⟩ : EvalCtx) astArith14
        (addMathConstants []) = .ok (.int 14, addMathConstants []) := by
      simp [astArith14, evalNode, applyBin, Val.asNum, bind, Except.bind,
        pure, Except.pure]
    simp only [engineFixture, engineEvaluate, hcheck, safeEvalExpr,
      (show pFixture "2 + 3 * 4" = .ok astArith14 by rfl), hev, if_true]
  · rw [hpass, hpass]
  · intro digest
    refine ⟨⟨"2 + 3 * 4", astArith14⟩,
      ⟨1000, [(digest "2 + 3 * 4", ⟨"2 + 3 * 4", astArith14⟩)], 0, 1⟩,
      ⟨1000, [(digest "2 + 3 * 4", ⟨"2 + 3 * 4", astArith14⟩)], 1, 1⟩,
      ?_, rfl, rfl, ?_, rfl, rfl⟩
    · simp [getOrCompile, lruGet, cacheFind, lruPut, moveToEnd,
        compileExpression, emptyCache,
        (show pFixture "2 + 3 * 4" = .ok astArith14 by rfl)]
    · simp [getOrCompile, lruGet, cacheFind, lruPut, moveToEnd, emptyCache]

/-- `lookupName` is stable under appending further bindings when the
key is already bound (first match wins). -/
theorem lookupName_append_some (m l : NameMap) (k : String) (v : Val)
    (h : lookupName m k = some v) : lookupName (m ++ l) k = some v := by
  induction m with
  | nil => simp [lookupName] at h
  | cons e m ih =>
      obtain ⟨k', v'⟩ := e
      by_cases hk : k = k'
      · simp [lookupName, hk] at h ⊢; exact h
      · simp [lookupName, hk] at h ⊢; exact ih h

/-- C10: the caller's context mapping is left unchanged by
`Engine.evaluate` — the ambient constants and all evaluation-time
bindings (including comprehension iteration variables) go only to the
per-call copy made by `_add_math_constants`, so the caller-visible
context after the call is exactly the context before it; moreover the
constants merge never overwrites an entry the caller supplied. -/
theorem engine_evaluate_preserves_context :
    (∀ (E : Engine) (p : ParseFn) (expr : String) (ctx : NameMap)
        (c : LRUCache), (engineEvaluate E p expr ctx c).2.2 = ctx) ∧
    (∀ (ctx : NameMap) (k : String) (v : Val),
      lookupName ctx k = some v →
      lookupName (addMathConstants ctx) k = some v) := by
  constructor
  · intro E p expr ctx c
    cases hsb : E.sandboxEnabled with
    | true =>
        cases hc : checkPure E.sandboxCfg p expr <;>
          simp [engineEvaluate, hsb, hc]
    | false => simp [engineEvaluate, hsb]
  · intro ctx k v h
    have step : ∀ (m : NameMap) (nm : String) (cv : Val),
        lookupName m k = some v →
        lookupName (if containsName m nm then m else m ++ [(nm, cv)]) k = some v := by
      intro m nm cv hm
      by_cases hc : containsName m nm
      · simp [hc, hm]
      · simp only [hc, if_neg, Bool.false_eq_true, if_false]
        exact lookupName_append_some m [(nm, cv)] k v hm
    simp only [addMathConstants]
    exact step _ _ _ (step _ _ _ (step _ _ _ (step _ _ _ h)))

/-- Witness for C10 at concrete inputs: evaluating over the context
`{"e": 9}` hands the caller back exactly `{"e": 9}`, and the constants
merge does not overwrite the caller's `e`. -/
theorem engine_evaluate_preserves_context_witness :
    (engineEvaluate engineFixture pFixture "2 + 3 * 4" [("e", .int 9)]
        (emptyCache 1000)).2.2 = [("e", .int 9)] ∧
    lookupName (addMathConstants [("e", .int 9)]) "e" = some (.int 9) :=
  ⟨engine_evaluate_preserves_context.1 engineFixture pFixture "2 + 3 * 4"
      [("e", .int 9)] (emptyCache 1000),
   engine_evaluate_preserves_context.2 [("e", .int 9)] "e" (.int 9) (by rfl)⟩

end QdataExpr
